import Mathlib

set_option maxRecDepth 4000000

/-!
Verification development for the chess rules engine of the `chess3d`
repository (`src/chess.c`, `src/chess.h`, `src/components.h`).

The engine works on a 0x88 board: `indices` is the 128-cell grid of
uint8 piece codes, squares are `rank * 16 + file`, and a square is
on-board iff `sq & 0x88 == 0`.  The C code below is embedded shallowly:

* `board_component_t` mirrors the struct of `components.h`, with the
  grid as a total function `Int → Nat` (the C array only exists on
  `0..127`; out-of-range reads, which the C could only reach through
  undefined behaviour, evaluate to `0` here);
* `is_legal_move_fuel` mirrors `is_legal_move` of `chess.c`; the single
  recursive call (castling asks whether the rook slide is itself legal)
  is handled with a fuel parameter.  The recursion depth is at most 3:
  a castle query recurses on `(f-3, f-1)` or `(f+4, f+1)`; the first
  has distance 2 again and can recurse once more on `(f+1, f-2)`, whose
  distance 3 can never re-enter the castle clause, so a budget of 3 is
  exact;
* `perform_move` / `revert_move` mirror the make/undo pair, with the
  uint8 castle mask updates written as `x &&& (255 ^^^ mask)` and uint32
  counter arithmetic taken mod `2 ^ 32`;
* `is_piece_attacked`, `is_checked_after_move_st` and
  `check_end_condition_reached` mirror the king-safety filter and the
  terminal-state detector.  Because the C functions mutate the board and
  then revert it, their embeddings thread the board state explicitly, so
  that imperfect reverts are faithfully represented.
-/

/-- Piece kind codes of `chess.h`. -/
def PIECE_PAWN : Nat := 0x1

def PIECE_KNIGHT : Nat := 0x2

def PIECE_KING : Nat := 0x3

def PIECE_BISHOP : Nat := 0x5

def PIECE_ROOK : Nat := 0x6

def PIECE_QUEEN : Nat := 0x7

/-- Color bits of `chess.h`. -/
def PIECE_WHITE : Nat := 0x0

def PIECE_BLACK : Nat := 0x8

def MASK_COLOR : Nat := 0x8

def MASK_TYPE : Nat := 0x7

def MASK_SLIDE : Nat := 0x4

def MASK_ROW : Nat := 0x70

/-- Move kinds of the `move_info_t` record (`chess.c`). -/
def MOVE_TYPE_MOVE : Nat := 0

def MOVE_TYPE_CAPTURE : Nat := 1

def MOVE_TYPE_CASTLE : Nat := 2

/-- Terminal tags (`chess.c`). -/
def STATE_PLAYING : Nat := 0

def STATE_WHITE_WIN_BY_CHECKMATE : Nat := 1

def STATE_BLACK_WIN_BY_CHECKMATE : Nat := 2

def STATE_DRAW_BY_STALEMATE : Nat := 3

/-- Two's-complement bitwise AND on `Int`, the semantics of C's `&` on
`int` operands (negative operands behave as infinite two's-complement
bit strings, which agrees with 32-bit `int &` on every value the code
can produce). -/
def int_and : Int → Int → Int
  | Int.ofNat m, Int.ofNat n => Int.ofNat (m &&& n)
  | Int.ofNat m, Int.negSucc n => Int.ofNat (m ^^^ (m &&& n))
  | Int.negSucc m, Int.ofNat n => Int.ofNat (n ^^^ (n &&& m))
  | Int.negSucc m, Int.negSucc n => Int.negSucc (m ||| n)

/-- The board component of `components.h`.  `indices` is the 128-entry
uint8 grid; `legal_move_indices` is the 64-entry highlight mask;
`selected_piece` abstracts the entity handle to its 64-bit id. -/
structure board_component_t where
  selected_piece : Nat
  legal_move_indices : Nat → Bool
  indices : Int → Nat
  current_player : Nat
  castle_bits : Nat
  num_white_captures : Nat
  num_black_captures : Nat
  en_passant_pos : Int
  move_count : Nat
  game_state : Nat

/-- The undo record `move_info_t` of `chess.c`.  `rook_pos` is zero
unless the move castles (the C designated initializer zero-fills it). -/
structure move_info_t where
  move_type : Nat
  capture : Nat
  capture_pos : Int
  rook_pos : Int
  last_castle_bits : Nat
  last_en_passant_pos : Int
  promotion : Nat

/-- Grid store: `updg g i v` is the grid `g` with cell `i` set to `v`. -/
def updg (g : Int → Nat) (i : Int) (v : Nat) : Int → Nat :=
  fun j => if j = i then v else g j

/-- Body of `is_legal_move` (`chess.c`, lines 157-233), abstracted over
the recursive occurrence (the castling rook-slide query). -/
def legal_move_body (board : board_component_t) (f t : Int)
    (rec : Int → Int → Bool) : Bool :=
  -- if ((to & 0x88) != 0) return false;
  if int_and t 136 ≠ 0 then false else
  let piece_to_move := board.indices f
  if piece_to_move = 0 then false else
  if piece_to_move &&& MASK_COLOR ≠ board.current_player then false else
  let piece_to_capture := board.indices t
  if piece_to_capture ≠ 0 ∧ piece_to_capture &&& MASK_COLOR = board.current_player then false else
  let diff := (f - t).natAbs
  let can_move :=
    if piece_to_move &&& MASK_TYPE = PIECE_PAWN then
      -- int dir = from - to > 0 ? 0 : 8;
      let dir : Nat := if 0 < f - t then 0 else 8
      -- int row = from & MASK_ROW;
      let row := int_and f 112
      if piece_to_move &&& MASK_COLOR = dir then
        (decide (diff = 16) && decide (piece_to_capture = 0))
        || ((decide (diff = 15) || decide (diff = 17)) && decide (piece_to_capture ≠ 0))
        || (decide (diff = 32) && (decide (row = 96) || decide (row = 16))
            && decide (piece_to_capture = 0)
            && decide (board.indices (f + (if dir ≠ 0 then 16 else -16)) = 0))
        || (if board.en_passant_pos ≠ 0 ∧ piece_to_capture = 0 then
              (decide (diff = (if dir ≠ 0 then 15 else 17))
                && decide (f - 1 = board.en_passant_pos))
              || (decide (diff = (if dir ≠ 0 then 17 else 15))
                && decide (f + 1 = board.en_passant_pos))
            else false)
      else false
    else if piece_to_move &&& MASK_TYPE = PIECE_KNIGHT then
      decide (diff = 14) || decide (diff = 18) || decide (diff = 31) || decide (diff = 33)
    else if piece_to_move &&& MASK_TYPE = PIECE_KING then
      -- int dir = from - to > 0 ? 1 : 0;
      let dir : Nat := if 0 < f - t then 1 else 0
      (decide (diff = 2)
        && decide (board.castle_bits >>> (board.current_player / 4 + dir) &&& 1 ≠ 0)
        && rec (f + (if dir ≠ 0 then -3 else 4)) (f + (if dir ≠ 0 then -1 else 1)))
      || (decide (diff = 1) || decide (diff = 16) || decide (diff = 17) || decide (diff = 15))
    else if piece_to_move &&& MASK_TYPE = PIECE_BISHOP then
      decide (diff % 15 = 0) || decide (diff % 17 = 0)
    else if piece_to_move &&& MASK_TYPE = PIECE_ROOK then
      decide (int_and f 15 = int_and t 15) || decide (int_and f 240 = int_and t 240)
    else if piece_to_move &&& MASK_TYPE = PIECE_QUEEN then
      decide (diff % 15 = 0) || decide (diff % 17 = 0)
        || decide (int_and f 15 = int_and t 15) || decide (int_and f 240 = int_and t 240)
    else false
  -- sliding-clearance loop
  if can_move = true ∧ piece_to_move &&& MASK_SLIDE ≠ 0 then
    let dirI := t - f
    let step0 : Int :=
      if Int.tmod dirI 17 = 0 then 17
      else if Int.tmod dirI 15 = 0 then 15
      else if Int.tmod dirI 16 = 0 then 16
      else 1
    let step : Int := if Int.tdiv dirI step0 < 0 then -step0 else step0
    (List.range (Int.toNat (Int.tdiv (t - f) step - 1))).all
      (fun i => decide (board.indices (f + step * (Int.ofNat i + 1)) = 0))
  else can_move

/-- Embedding of `is_legal_move` with an explicit recursion-depth budget. -/
def is_legal_move_fuel : Nat → board_component_t → Int → Int → Bool
  | 0, _, _, _ => false
  | fuel + 1, board, f, t => legal_move_body board f t (is_legal_move_fuel fuel board)

/-- The pseudo-legality oracle `is_legal_move` of `chess.c`.  Fuel 3 is
exact: the recursion depth is bounded by 3 (see the header comment), as
`is_legal_move_fuel_three` proves. -/
def is_legal_move (board : board_component_t) (f t : Int) : Bool :=
  is_legal_move_fuel 3 board f t

/-- Embedding of `perform_move` of `chess.c` (lines 46-128).  Returns the updated
board together with the `move_info_t` undo record.  Grid reads and
writes happen in the source's order: the castled rook is relocated
before the rook-corner tests, the en-passant victim is removed and the
promotion rewrite applied before the final two-cell move. -/
def perform_move (b : board_component_t) (f t : Int) :
    board_component_t × move_info_t :=
  let capture := b.indices t
  let info0 : move_info_t :=
    ⟨if capture ≠ 0 then MOVE_TYPE_CAPTURE else MOVE_TYPE_MOVE,
      capture, t, 0, b.castle_bits, b.en_passant_pos, 0⟩
  -- king block: drop both castle bits, relocate the rook on a castle
  let cb1 :=
    if b.indices f &&& MASK_TYPE = PIECE_KING then
      b.castle_bits &&& (255 ^^^ ((3 <<< (b.current_player / 4)) &&& 255))
    else b.castle_bits
  let g1 :=
    if b.indices f &&& MASK_TYPE = PIECE_KING ∧ (f - t).natAbs = 2 then
      let rook_from := f + (if t < f then -3 else 4)
      let rook_to := f + (if t < f then -1 else 1)
      updg (updg b.indices rook_to (b.indices rook_from)) rook_from 0
    else b.indices
  let info1 :=
    if b.indices f &&& MASK_TYPE = PIECE_KING ∧ (f - t).natAbs = 2 then
      { info0 with move_type := MOVE_TYPE_CASTLE,
                   rook_pos := f + (if t < f then -3 else 4) }
    else info0
  -- rook leaves a corner: revoke the mover's castle bit
  let cb2 :=
    if g1 f &&& MASK_TYPE = PIECE_ROOK then
      if f = 0x0 ∨ f = 0x70 then
        cb1 &&& (255 ^^^ ((1 <<< (b.current_player / 4 + 0)) &&& 255))
      else if f = 0x7 ∨ f = 0x77 then
        cb1 &&& (255 ^^^ ((1 <<< (b.current_player / 4 + 1)) &&& 255))
      else cb1
    else cb1
  -- rook captured in a corner: revoke the opponent's castle bit
  let opponent := if b.current_player = PIECE_WHITE then PIECE_BLACK else PIECE_WHITE
  let cb3 :=
    if g1 t &&& MASK_TYPE = PIECE_ROOK then
      if t = 0x0 ∨ t = 0x70 then
        cb2 &&& (255 ^^^ ((1 <<< (opponent / 4 + 0)) &&& 255))
      else if t = 0x7 ∨ t = 0x77 then
        cb2 &&& (255 ^^^ ((1 <<< (opponent / 4 + 1)) &&& 255))
      else cb2
    else cb2
  -- pawn block: en-passant bookkeeping
  let pawnStep :=
    if g1 f &&& MASK_TYPE = PIECE_PAWN then
      if (f - t).natAbs = 32 then (g1, t, info1)
      else if ((f - t).natAbs = 17 ∨ (f - t).natAbs = 15) ∧ capture = 0 then
        let pos := b.en_passant_pos
        (updg g1 pos 0, 0,
          { info1 with move_type := MOVE_TYPE_CAPTURE, capture_pos := pos,
                       capture := g1 pos })
      else (g1, 0, info1)
    else (g1, (0 : Int), info1)
  let g2 := pawnStep.1
  let ep1 := pawnStep.2.1
  let info2 := pawnStep.2.2
  -- promotion block
  let promoStep :=
    if g2 f &&& MASK_TYPE = PIECE_PAWN ∧ (int_and t 112 = 0 ∨ int_and t 112 = 112) then
      (updg g2 f (PIECE_QUEEN ||| (g2 f &&& MASK_COLOR)),
        { info2 with promotion := PIECE_QUEEN })
    else (g2, info2)
  let g3 := promoStep.1
  let info3 := promoStep.2
  -- indices[to] = indices[from]; indices[from] = 0
  let g4 := updg (updg g3 t (g3 f)) f 0
  ({ b with indices := g4,
            current_player :=
              if b.current_player = PIECE_WHITE then PIECE_BLACK else PIECE_WHITE,
            castle_bits := cb3,
            en_passant_pos := ep1,
            move_count := (b.move_count + 1) % 4294967296 },
    info3)

/-- Embedding of `revert_move` of `chess.c` (lines 130-155). -/
def revert_move (b : board_component_t) (f t : Int) (info : move_info_t) :
    board_component_t :=
  -- indices[from] = indices[to]; indices[to] = 0; indices[capture_pos] = capture
  let g1 := updg (updg (updg b.indices f (b.indices t)) t 0) info.capture_pos info.capture
  let g2 :=
    if info.move_type = MOVE_TYPE_CASTLE then
      let rook_from := f + (if t < f then -3 else 4)
      let rook_to := f + (if t < f then -1 else 1)
      updg (updg g1 rook_from (g1 rook_to)) rook_to 0
    else g1
  let g3 :=
    if info.promotion ≠ 0 then
      updg g2 f (PIECE_PAWN ||| (g2 f &&& MASK_COLOR))
    else g2
  { b with indices := g3,
           current_player :=
             if b.current_player = PIECE_WHITE then PIECE_BLACK else PIECE_WHITE,
           castle_bits := info.last_castle_bits,
           en_passant_pos := info.last_en_passant_pos,
           move_count := (b.move_count + 4294967296 - 1) % 4294967296 }

/-- Embedding of `is_piece_attacked` of `chess.c` (lines 235-256): locate the first
cell holding exactly `piece` (position 0 when absent) and ask whether
any square has a pseudo-legal move onto it. -/
def is_piece_attacked (b : board_component_t) (piece : Nat) : Bool :=
  let pos : Int :=
    Int.ofNat (((List.range 128).find? (fun i => b.indices (Int.ofNat i) == piece)).getD 0)
  (List.range 128).any (fun i => is_legal_move b (Int.ofNat i) pos)

/-- Embedding of `is_checked_after_move` of `chess.c` (lines 258-267), with the board
threaded: the C function performs the move on the shared board, queries
the mover's king, then reverts.  The returned board is the reverted one,
which need not equal the input when the revert is inexact. -/
def is_checked_after_move_st (b : board_component_t) (f t : Int) :
    board_component_t × Bool :=
  let pr := perform_move b f t
  let king_piece :=
    PIECE_KING ||| (if pr.1.current_player = PIECE_WHITE then PIECE_BLACK else PIECE_WHITE)
  let checked := is_piece_attacked pr.1 king_piece
  (revert_move pr.1 f t pr.2, checked)

/-- The Boolean computed by `is_checked_after_move` on a given board. -/
def is_checked_after_move (b : board_component_t) (f t : Int) : Bool :=
  (is_checked_after_move_st b f t).2

/-- All `(from, to)` probe pairs of the terminal-detection double loop,
in the C iteration order. -/
def all_board_pairs : List (Nat × Nat) :=
  (List.range 128).flatMap (fun f => (List.range 128).map (fun t => (f, t)))

/-- One iteration of the `num_legal_moves` loop of
`check_end_condition_reached`: `is_legal_move` short-circuits the `&&`,
so `is_checked_after_move` (and the transient mutation it performs) only
runs on pseudo-legal pairs. -/
def count_legal_step (s : board_component_t × Nat) (ft : Nat × Nat) :
    board_component_t × Nat :=
  if is_legal_move s.1 (Int.ofNat ft.1) (Int.ofNat ft.2) then
    let r := is_checked_after_move_st s.1 (Int.ofNat ft.1) (Int.ofNat ft.2)
    (r.1, s.2 + (if r.2 then 0 else 1))
  else s

/-- Embedding of `check_end_condition_reached` of `chess.c` (lines 269-295), with the
board threaded through the move-counting loop. -/
def check_end_condition_reached (b : board_component_t) : board_component_t :=
  let player := b.current_player
  let checked :=
    is_piece_attacked
      { b with current_player := if player = PIECE_WHITE then PIECE_BLACK else PIECE_WHITE }
      (PIECE_KING ||| player)
  let loop := all_board_pairs.foldl count_legal_step (b, 0)
  let b2 := loop.1
  let num_legal_moves := loop.2
  if num_legal_moves = 0 then
    if checked then
      { b2 with game_state :=
          if player = PIECE_WHITE then STATE_BLACK_WIN_BY_CHECKMATE
          else STATE_WHITE_WIN_BY_CHECKMATE }
    else
      { b2 with game_state := STATE_DRAW_BY_STALEMATE }
  else
    { b2 with game_state := STATE_PLAYING }

/-- The 64-bit sentinel `UINT64_MAX` used for "no selection". -/
def UINT64_MAX : Nat := 18446744073709551615

/-- Embedding of `try_move_selected_piece` of `chess.c` (lines 470-529), restricted
to its effect on the board component.  The entity layer is abstracted:
`alive` is the `is_entity_alive` result for the current selection and
`selPos` the selected piece's `board_position`; moving meshes, spawning
the promoted piece and relocating the captured or castled piece entity
touch no board field and are omitted.  All board reads and writes happen
in the source's order: in particular `is_checked_after_move` runs (and
transiently mutates the board) only when `is_legal_move` already
holds, and the early returns leave the board exactly as that call left
it. -/
def try_move_selected_piece (alive : Bool) (selPos : Int)
    (b : board_component_t) (x z : Int) : board_component_t :=
  if alive = false then b
  else
    let f := selPos
    let t := x + z * 16
    if is_legal_move b f t = false then b
    else
      let chk := is_checked_after_move_st b f t
      if chk.2 then chk.1
      else
        let pr := perform_move chk.1 f t
        let info := pr.2
        let b3 := check_end_condition_reached pr.1
        -- secondary piece handling: only the capture branch touches the
        -- board (the per-color capture counters)
        let is_white := chk.1.indices f &&& MASK_COLOR = PIECE_WHITE
        let b4 :=
          if info.move_type ≠ MOVE_TYPE_MOVE then
            if info.move_type = MOVE_TYPE_CAPTURE then
              if is_white then
                { b3 with num_black_captures := (b3.num_black_captures + 1) % 256 }
              else
                { b3 with num_white_captures := (b3.num_white_captures + 1) % 256 }
            else b3
          else b3
        { b4 with selected_piece := UINT64_MAX,
                  legal_move_indices := fun _ => false }

/-- State-threaded rendering of `is_legal_move`: every branch passes the
board along unchanged except the recursive castling query, whose output
board is the one used from then on.  Because the C function contains no
store to `board`, every return site pairs its Boolean with the board it
was handed; the frame theorem below makes that observation formal. -/
def legal_move_body_st (b : board_component_t) (f t : Int)
    (recst : Int → Int → board_component_t × Bool) : board_component_t × Bool :=
    if int_and t 136 ≠ 0 then (b, false) else
    let piece_to_move := b.indices f
    if piece_to_move = 0 then (b, false) else
    if piece_to_move &&& MASK_COLOR ≠ b.current_player then (b, false) else
    let piece_to_capture := b.indices t
    if piece_to_capture ≠ 0 ∧ piece_to_capture &&& MASK_COLOR = b.current_player then (b, false) else
    let diff := (f - t).natAbs
    let cm :=
      if piece_to_move &&& MASK_TYPE = PIECE_PAWN then
        let dir : Nat := if 0 < f - t then 0 else 8
        let row := int_and f 112
        (b,
          if piece_to_move &&& MASK_COLOR = dir then
            (decide (diff = 16) && decide (piece_to_capture = 0))
            || ((decide (diff = 15) || decide (diff = 17)) && decide (piece_to_capture ≠ 0))
            || (decide (diff = 32) && (decide (row = 96) || decide (row = 16))
                && decide (piece_to_capture = 0)
                && decide (b.indices (f + (if dir ≠ 0 then 16 else -16)) = 0))
            || (if b.en_passant_pos ≠ 0 ∧ piece_to_capture = 0 then
                  (decide (diff = (if dir ≠ 0 then 15 else 17))
                    && decide (f - 1 = b.en_passant_pos))
                  || (decide (diff = (if dir ≠ 0 then 17 else 15))
                    && decide (f + 1 = b.en_passant_pos))
                else false)
          else false)
      else if piece_to_move &&& MASK_TYPE = PIECE_KNIGHT then
        (b, decide (diff = 14) || decide (diff = 18) || decide (diff = 31) || decide (diff = 33))
      else if piece_to_move &&& MASK_TYPE = PIECE_KING then
        let dir : Nat := if 0 < f - t then 1 else 0
        let castle :=
          if diff = 2 ∧ b.castle_bits >>> (b.current_player / 4 + dir) &&& 1 ≠ 0 then
            recst (f + (if dir ≠ 0 then -3 else 4)) (f + (if dir ≠ 0 then -1 else 1))
          else (b, false)
        (castle.1,
          castle.2
          || (decide (diff = 1) || decide (diff = 16) || decide (diff = 17) || decide (diff = 15)))
      else if piece_to_move &&& MASK_TYPE = PIECE_BISHOP then
        (b, decide (diff % 15 = 0) || decide (diff % 17 = 0))
      else if piece_to_move &&& MASK_TYPE = PIECE_ROOK then
        (b, decide (int_and f 15 = int_and t 15) || decide (int_and f 240 = int_and t 240))
      else if piece_to_move &&& MASK_TYPE = PIECE_QUEEN then
        (b, decide (diff % 15 = 0) || decide (diff % 17 = 0)
          || decide (int_and f 15 = int_and t 15) || decide (int_and f 240 = int_and t 240))
      else (b, false)
    if cm.2 = true ∧ piece_to_move &&& MASK_SLIDE ≠ 0 then
      let dirI := t - f
      let step0 : Int :=
        if Int.tmod dirI 17 = 0 then 17
        else if Int.tmod dirI 15 = 0 then 15
        else if Int.tmod dirI 16 = 0 then 16
        else 1
      let step : Int := if Int.tdiv dirI step0 < 0 then -step0 else step0
      (cm.1,
        (List.range (Int.toNat (Int.tdiv (t - f) step - 1))).all
          (fun i => decide (cm.1.indices (f + step * (Int.ofNat i + 1)) = 0)))
    else cm

/-- State-threaded `is_legal_move` with the same fuel discipline as the
pure oracle. -/
def is_legal_move_st : Nat → board_component_t → Int → Int → board_component_t × Bool
  | 0, b, _, _ => (b, false)
  | fuel + 1, b, f, t => legal_move_body_st b f t (is_legal_move_st fuel b)

/-- Valid §3.1 piece codes: one byte with color bit 3 and a kind from
the table (1, 2, 3, 5, 6, 7); zero means empty. -/
def valid_piece_code (c : Nat) : Bool :=
  decide (c = 0)
  || (decide (c &&& MASK_TYPE ≠ 0) && decide (c &&& MASK_TYPE ≠ 4) && decide (c < 16))

/-- Number of cells of the 128-cell grid holding exactly `code`. -/
def count_piece (b : board_component_t) (code : Nat) : Nat :=
  ((List.range 128).filter (fun i => b.indices (Int.ofNat i) == code)).length

/-- The §3.3 state invariants of the spec, as a decidable check: one
king per color, two-valued side to move, a 4-bit castle mask, a uint32
move counter, zeroed sentinel cells, §3.1 piece codes, and an
en-passant square that is 0 or holds an opposing pawn on the rank a
double advance reaches. -/
def board_invariants (b : board_component_t) : Bool :=
  (decide (count_piece b (PIECE_KING ||| PIECE_WHITE) = 1))
  && (decide (count_piece b (PIECE_KING ||| PIECE_BLACK) = 1))
  && (decide (b.current_player = PIECE_WHITE) || decide (b.current_player = PIECE_BLACK))
  && decide (b.castle_bits < 16)
  && decide (b.move_count < 4294967296)
  && (List.range 128).all (fun i =>
       decide (int_and (Int.ofNat i) 136 = 0) || decide (b.indices (Int.ofNat i) = 0))
  && (List.range 128).all (fun i => valid_piece_code (b.indices (Int.ofNat i)))
  && (decide (b.en_passant_pos = 0)
      || (decide (int_and b.en_passant_pos 136 = 0)
          && decide (b.indices b.en_passant_pos &&& MASK_TYPE = PIECE_PAWN)
          && decide (b.indices b.en_passant_pos &&& MASK_COLOR ≠ b.current_player)
          && decide (int_and b.en_passant_pos 112
              = (if b.current_player = PIECE_WHITE then 48 else 64))))

/-- True unless `(f, t)` is a castling king move whose rook destination
square `f ± 1` is occupied.  `perform_move` writes the castled rook over
that square and `revert_move` clears it, so an occupant there is the one
way a pseudo-legal make/undo pair can fail to round-trip. -/
def castle_dest_clear (b : board_component_t) (f t : Int) : Bool :=
  !(decide (b.indices f &&& MASK_TYPE = PIECE_KING) && decide ((f - t).natAbs = 2))
  || decide (b.indices (f + (if t < f then -1 else 1)) = 0)

/-- All pseudo-legal castles of the position have an empty rook
destination (quantified over the probe square range of the terminal
detector). -/
def all_castle_dests_clear (b : board_component_t) : Bool :=
  all_board_pairs.all (fun ft =>
    !(is_legal_move b (Int.ofNat ft.1) (Int.ofNat ft.2))
    || castle_dest_clear b (Int.ofNat ft.1) (Int.ofNat ft.2))

/-- Every pawn's code is exactly `PIECE_PAWN` or
`PIECE_PAWN ||| PIECE_BLACK` (no stray high bits), so that undoing a
promotion restores the byte exactly. -/
def pawn_codes_exact (b : board_component_t) : Bool :=
  (List.range 128).all (fun i =>
    decide (b.indices (Int.ofNat i) &&& MASK_TYPE ≠ PIECE_PAWN)
    || decide (b.indices (Int.ofNat i) = PIECE_PAWN)
    || decide (b.indices (Int.ofNat i) = PIECE_PAWN ||| PIECE_BLACK))

/-- Claim-side count for terminal detection: the number of `(from, to)`
pairs in `0..127²` that are pseudo-legal on `b` and leave the mover's
king safe, every probe evaluated against the unchanged board `b`. -/
def spec_num_legal_moves (b : board_component_t) : Nat :=
  (all_board_pairs.filter (fun ft =>
    is_legal_move b (Int.ofNat ft.1) (Int.ofNat ft.2)
    && !(is_checked_after_move b (Int.ofNat ft.1) (Int.ofNat ft.2)))).length

/-- Claim-side check test: whether the side to move's king is attacked,
probing with the opponent temporarily to move. -/
def spec_side_in_check (b : board_component_t) : Bool :=
  is_piece_attacked
    { b with current_player :=
        if b.current_player = PIECE_WHITE then PIECE_BLACK else PIECE_WHITE }
    (PIECE_KING ||| b.current_player)

/-- The terminal tag the claim prescribes for a position: checkmate for
the opponent when the side to move has no legal move and stands in
check, stalemate when it has no legal move and does not, else playing. -/
def spec_terminal_tag (b : board_component_t) : Nat :=
  if spec_num_legal_moves b = 0 then
    if spec_side_in_check b then
      if b.current_player = PIECE_WHITE then STATE_BLACK_WIN_BY_CHECKMATE
      else STATE_WHITE_WIN_BY_CHECKMATE
    else STATE_DRAW_BY_STALEMATE
  else STATE_PLAYING

/-- Back-rank piece kinds in file order, as placed by `create_board`
(rook, knight, bishop, king, queen, bishop, knight, rook). -/
def back_rank : List Nat := [6, 2, 5, 3, 7, 5, 2, 6]

/-- The initial grid built by `create_board`: Black's back rank on rank
0, Black pawns on rank 1, White pawns on rank 6, White's back rank on
rank 7. -/
def initial_grid (i : Int) : Nat :=
  if 0 ≤ i ∧ i < 128 ∧ int_and i 136 = 0 then
    let file := (int_and i 15).toNat
    let rank := (int_and i 112).toNat / 16
    if rank = 0 then back_rank.getD file 0 ||| PIECE_BLACK
    else if rank = 1 then PIECE_PAWN ||| PIECE_BLACK
    else if rank = 6 then PIECE_PAWN
    else if rank = 7 then back_rank.getD file 0
    else 0
  else 0

/-- The initial board: White to move, all castle rights. -/
def initial_board : board_component_t :=
  ⟨UINT64_MAX, fun _ => false, initial_grid, PIECE_WHITE, 15, 0, 0, 0, 0, STATE_PLAYING⟩

example : is_legal_move initial_board 100 68 = true := by decide

example : is_legal_move initial_board 100 36 = false := by decide

example : is_legal_move initial_board 113 82 = true := by decide

example : is_legal_move initial_board 113 81 = false := by decide

example : is_legal_move initial_board 115 113 = false := by decide

example : board_invariants initial_board = true := by decide

example : (perform_move initial_board 100 68).1.en_passant_pos = 68 := by decide

/-- Counterexample board for C1: White king 0x73 and rook 0x70 with the
low-castle right, a Black knight on the castling rook's destination 0x72,
and the Black king on 0x07.  The §3.3 invariants hold and the castle
(0x73, 0x71) is pseudo-legal — the rook-slide query treats the knight as
a capture — but `perform_move` overwrites the knight and `revert_move`
zeroes the square, so the round-trip loses the knight. -/
def cexC1 : board_component_t :=
  ⟨UINT64_MAX, fun _ => false,
    (fun i => if i = 115 then 3 else if i = 112 then 6
      else if i = 114 then 10 else if i = 7 then 11 else 0),
    PIECE_WHITE, 2, 0, 0, 0, 0, STATE_PLAYING⟩

/-- C2 test board, low-castle gating: White king 0x73, White rook 0x70,
Black king 0x07, castle mask `0x1` (bit 0, the spec's queenside bit). -/
def cexC2a : board_component_t :=
  ⟨UINT64_MAX, fun _ => false,
    (fun i => if i = 115 then 3 else if i = 112 then 6
      else if i = 7 then 11 else 0),
    PIECE_WHITE, 1, 0, 0, 0, 0, STATE_PLAYING⟩

/-- The same position with castle mask `0x2` (bit 1). -/
def cexC2b : board_component_t :=
  ⟨UINT64_MAX, fun _ => false,
    (fun i => if i = 115 then 3 else if i = 112 then 6
      else if i = 7 then 11 else 0),
    PIECE_WHITE, 2, 0, 0, 0, 0, STATE_PLAYING⟩

/-- Counterexample board for C7: `cexC1` plus a Black rook on 0x41
covering the castling king's destination file.  The castle (0x73, 0x71)
is pseudo-legal but leaves the king in check, so the guard rejects the
move — yet the transient make/unmake has already destroyed the knight on
0x72, so the "no-op" hands back a different board. -/
def cexC7 : board_component_t :=
  ⟨UINT64_MAX, fun _ => false,
    (fun i => if i = 115 then 3 else if i = 112 then 6
      else if i = 114 then 10 else if i = 65 then 14
      else if i = 7 then 11 else 0),
    PIECE_WHITE, 2, 0, 0, 0, 0, STATE_PLAYING⟩

def probe_row (f : Nat) : List (Nat × Nat) :=
  (List.range 128).map (fun t => (f, t))

/-- Counterexample board for C3: White to move, checkmated — king 0x73
checked by the rook on 0x33, escape squares covered by the rook on 0x61,
the knight on 0x51 and the rook on 0x72 — with the low-castle right still
set and the Black rook sitting on the castling rook's destination 0x72.
The probe (0x73, 0x71) of the detection loop transiently deletes that
rook, after which the loop scores (0x73, 0x74) as a legal escape. -/
def cexC3 : board_component_t :=
  ⟨UINT64_MAX, fun _ => false,
    (fun i => if i = 115 then 3 else if i = 112 then 6
      else if i = 51 then 14 else if i = 97 then 14
      else if i = 81 then 10 else if i = 114 then 14
      else if i = 7 then 11 else 0),
    PIECE_WHITE, 2, 0, 0, 0, 0, STATE_PLAYING⟩

/-- The board `cexC3` after the corrupting probe: the Black rook on 0x72 is gone. -/
def cexC3' : board_component_t := { cexC3 with indices := updg cexC3.indices 114 0 }

attribute [ext] board_component_t

theorem updg_apply_eq (g : Int → Nat) (i : Int) (v : Nat) : updg g i v i = v := by
  simp [updg]

theorem updg_apply_ne (g : Int → Nat) (i : Int) (v : Nat) (j : Int) (h : j ≠ i) :
    updg g i v j = g j := by
  simp [updg, h]

theorem updg_shadow (g : Int → Nat) (i : Int) (v w : Nat) :
    updg (updg g i v) i w = updg g i w := by
  funext j
  by_cases h : j = i <;> simp [updg, h]

theorem updg_id (g : Int → Nat) (i : Int) (v : Nat) (h : g i = v) : updg g i v = g := by
  funext j
  by_cases hj : j = i <;> simp [updg, hj, h]

/-- The move counter round-trips: uint32 increment then decrement is the
identity on values below `2 ^ 32`. -/
theorem move_count_roundtrip (m : Nat) (h : m < 4294967296) :
    ((m + 1) % 4294967296 + 4294967296 - 1) % 4294967296 = m := by
  omega

/-- Flipping the player twice is the identity on the two color values. -/
theorem flip_flip (p : Nat) (hp : p = PIECE_WHITE ∨ p = PIECE_BLACK) :
    (if (if p = PIECE_WHITE then PIECE_BLACK else PIECE_WHITE) = PIECE_WHITE
     then PIECE_BLACK else PIECE_WHITE) = p := by
  rcases hp with h | h <;> simp [h, PIECE_WHITE, PIECE_BLACK]

/-- Basic facts available for every pseudo-legal move: the target is
on-board, the source is a piece of the side to move, and the target does
not hold a piece of the side to move. -/
theorem legal_inv (b : board_component_t) (f t : Int)
    (hleg : is_legal_move b f t = true) :
    int_and t 136 = 0 ∧ b.indices f ≠ 0
      ∧ b.indices f &&& MASK_COLOR = b.current_player
      ∧ ¬(b.indices t ≠ 0 ∧ b.indices t &&& MASK_COLOR = b.current_player) := by
  unfold is_legal_move is_legal_move_fuel legal_move_body at hleg
  by_cases h0 : int_and t 136 ≠ 0
  · rw [if_pos h0] at hleg
    exact absurd hleg (by simp)
  · rw [if_neg h0] at hleg
    push_neg at h0
    by_cases h1 : b.indices f = 0
    · rw [if_pos h1] at hleg
      exact absurd hleg (by simp)
    · rw [if_neg h1] at hleg
      by_cases h2 : b.indices f &&& MASK_COLOR ≠ b.current_player
      · rw [if_pos h2] at hleg
        exact absurd hleg (by simp)
      · rw [if_neg h2] at hleg
        push_neg at h2
        by_cases h3 : b.indices t ≠ 0 ∧ b.indices t &&& MASK_COLOR = b.current_player
        · rw [if_pos h3] at hleg
          exact absurd hleg (by simp)
        · exact ⟨h0, h1, h2, h3⟩

/-- A pseudo-legal move never has `from = to`: at the shared square the
destination piece is the mover itself, so the own-capture test fires. -/
theorem legal_ne (b : board_component_t) (f t : Int)
    (hleg : is_legal_move b f t = true) : f ≠ t := by
  intro he
  subst he
  obtain ⟨h0, h1, h2, h3⟩ := legal_inv b f f hleg
  exact h3 ⟨h1, h2⟩

/-- The sliding bit is a function of the kind bits: `a & 4` is
determined by `a & 7`. -/
theorem slide_of_type (a k : Nat) (h : a &&& MASK_TYPE = k) :
    a &&& MASK_SLIDE = k &&& MASK_SLIDE := by
  have h74 : (7 : Nat) &&& 4 = 4 := by decide
  unfold MASK_TYPE at h
  unfold MASK_SLIDE
  calc a &&& 4 = a &&& (7 &&& 4) := by rw [h74]
    _ = a &&& 7 &&& 4 := (Nat.land_assoc a 7 4).symm
    _ = k &&& 4 := by rw [h]

/-- En-passant inversion: a pseudo-legal diagonal pawn move onto an
empty square can only come from the en-passant clauses, so the recorded
en-passant square is the file neighbour of the source square. -/
theorem legal_pawn_ep (b : board_component_t) (f t : Int)
    (hleg : is_legal_move b f t = true)
    (hkp : b.indices f &&& MASK_TYPE = PIECE_PAWN)
    (hd : (f - t).natAbs = 17 ∨ (f - t).natAbs = 15)
    (hcap : b.indices t = 0) :
    b.en_passant_pos = f - 1 ∨ b.en_passant_pos = f + 1 := by
  obtain ⟨h0, h1, h2, h3⟩ := legal_inv b f t hleg
  have hs : b.indices f &&& MASK_SLIDE = 0 := by
    rw [slide_of_type (b.indices f) PIECE_PAWN hkp]
    decide
  unfold is_legal_move is_legal_move_fuel legal_move_body at hleg
  rw [if_neg (show ¬int_and t 136 ≠ 0 from by simp [h0])] at hleg
  rw [if_neg h1] at hleg
  rw [if_neg (show ¬b.indices f &&& MASK_COLOR ≠ b.current_player from by simp [h2])] at hleg
  rw [if_neg h3] at hleg
  rcases hd with hd | hd <;> by_cases hsign : 0 < f - t <;>
    simp [hkp, hs, hcap, hd, hsign] at hleg <;> omega

theorem perform_last_castle_bits (b : board_component_t) (f t : Int) :
    ((perform_move b f t).2).last_castle_bits = b.castle_bits := by
  simp only [perform_move]
  split_ifs <;> rfl

theorem perform_last_en_passant (b : board_component_t) (f t : Int) :
    ((perform_move b f t).2).last_en_passant_pos = b.en_passant_pos := by
  simp only [perform_move]
  split_ifs <;> rfl

theorem perform_game_state (b : board_component_t) (f t : Int) :
    ((perform_move b f t).1).game_state = b.game_state := rfl

theorem perform_current_player (b : board_component_t) (f t : Int) :
    ((perform_move b f t).1).current_player
      = (if b.current_player = PIECE_WHITE then PIECE_BLACK else PIECE_WHITE) := rfl

theorem perform_move_count (b : board_component_t) (f t : Int) :
    ((perform_move b f t).1).move_count = (b.move_count + 1) % 4294967296 := rfl

theorem perform_info_noncastle_nonep (b : board_component_t) (f t : Int)
    (hnc : ¬(b.indices f &&& MASK_TYPE = PIECE_KING ∧ (f - t).natAbs = 2))
    (hnep : ¬(b.indices f &&& MASK_TYPE = PIECE_PAWN
      ∧ ((f - t).natAbs = 17 ∨ (f - t).natAbs = 15) ∧ b.indices t = 0)) :
    (perform_move b f t).2 =
      ⟨if b.indices t ≠ 0 then MOVE_TYPE_CAPTURE else MOVE_TYPE_MOVE,
        b.indices t, t, 0, b.castle_bits, b.en_passant_pos,
        if b.indices f &&& MASK_TYPE = PIECE_PAWN
            ∧ (int_and t 112 = 0 ∨ int_and t 112 = 112) then PIECE_QUEEN else 0⟩ := by
  simp only [perform_move, if_neg hnc]
  split_ifs <;> simp_all

theorem perform_indices_noncastle_nonep (b : board_component_t) (f t : Int)
    (hnc : ¬(b.indices f &&& MASK_TYPE = PIECE_KING ∧ (f - t).natAbs = 2))
    (hnep : ¬(b.indices f &&& MASK_TYPE = PIECE_PAWN
      ∧ ((f - t).natAbs = 17 ∨ (f - t).natAbs = 15) ∧ b.indices t = 0)) :
    (perform_move b f t).1.indices =
      (let g3 :=
        if b.indices f &&& MASK_TYPE = PIECE_PAWN
            ∧ (int_and t 112 = 0 ∨ int_and t 112 = 112) then
          updg b.indices f (PIECE_QUEEN ||| (b.indices f &&& MASK_COLOR))
        else b.indices
       updg (updg g3 t (g3 f)) f 0) := by
  simp only [perform_move, if_neg hnc]
  split_ifs <;> simp_all

theorem perform_selected_piece (b : board_component_t) (f t : Int) :
    ((perform_move b f t).1).selected_piece = b.selected_piece := rfl

theorem perform_legal_move_indices (b : board_component_t) (f t : Int) :
    ((perform_move b f t).1).legal_move_indices = b.legal_move_indices := rfl

theorem perform_num_white_captures (b : board_component_t) (f t : Int) :
    ((perform_move b f t).1).num_white_captures = b.num_white_captures := rfl

theorem perform_num_black_captures (b : board_component_t) (f t : Int) :
    ((perform_move b f t).1).num_black_captures = b.num_black_captures := rfl

theorem grid_plain_rt (ind : Int → Nat) (f t : Int) (hft : f ≠ t) :
    updg (updg (updg (updg (updg ind t (ind f)) f 0) f
        ((updg (updg ind t (ind f)) f 0) t)) t 0) t (ind t) = ind := by
  funext j
  by_cases h1 : j = t
  · simp [updg, h1, Ne.symm hft]
  · by_cases h2 : j = f
    · simp [updg, h1, h2, hft, Ne.symm hft]
    · simp [updg, h1, h2]

theorem grid_promo_rt (ind : Int → Nat) (f t : Int) (hft : f ≠ t)
    (hv : ind f = 1 ∨ ind f = 9) :
    (let g3 := updg ind f (PIECE_QUEEN ||| (ind f &&& MASK_COLOR))
     let g4 := updg (updg g3 t (g3 f)) f 0
     let G := updg (updg (updg g4 f (g4 t)) t 0) t (ind t)
     updg G f (PIECE_PAWN ||| (G f &&& MASK_COLOR))) = ind := by
  funext j
  by_cases h1 : j = t
  · simp [updg, h1, Ne.symm hft]
  · by_cases h2 : j = f
    · rcases hv with hv | hv <;>
        simp [updg, h1, h2, hv, hft, Ne.symm hft, PIECE_PAWN, PIECE_QUEEN, MASK_COLOR,
          show (7 : Nat) ||| 1 &&& 8 = 7 from by decide,
          show (1 : Nat) ||| 7 &&& 8 = 1 from by decide,
          show (7 : Nat) ||| 9 &&& 8 = 15 from by decide,
          show (1 : Nat) ||| 15 &&& 8 = 9 from by decide]
    · simp [updg, h1, h2]

theorem grid_ep_rt (ind : Int → Nat) (f t pos : Int) (hft : f ≠ t)
    (hpf : pos ≠ f) (hpt : pos ≠ t) :
    (let g2 := updg ind pos 0
     let g4 := updg (updg g2 t (g2 f)) f 0
     updg (updg (updg g4 f (g4 t)) t 0) pos (ind pos)) =
      updg ind t 0 := by
  funext j
  by_cases h1 : j = pos
  · simp [updg, h1, hpf, hpt]
  · by_cases h2 : j = t
    · simp [updg, h1, h2, hft, Ne.symm hft, hpt, Ne.symm hpt]
    · by_cases h3 : j = f
      · simp [updg, h1, h2, h3, hft, Ne.symm hft, hpf, Ne.symm hpf]
      · simp [updg, h1, h2, h3]

theorem grid_ep_promo_rt (ind : Int → Nat) (f t pos : Int) (hft : f ≠ t)
    (hpf : pos ≠ f) (hpt : pos ≠ t) (hv : ind f = 1 ∨ ind f = 9) :
    (let g2 := updg ind pos 0
     let g3 := updg g2 f (PIECE_QUEEN ||| (g2 f &&& MASK_COLOR))
     let g4 := updg (updg g3 t (g3 f)) f 0
     let G := updg (updg (updg g4 f (g4 t)) t 0) pos (ind pos)
     updg G f (PIECE_PAWN ||| (G f &&& MASK_COLOR))) =
      updg ind t 0 := by
  funext j
  by_cases h1 : j = f
  · rcases hv with hv | hv <;>
      simp [updg, h1, hft, Ne.symm hft, hpf, Ne.symm hpf, hpt, Ne.symm hpt, hv,
        PIECE_PAWN, PIECE_QUEEN, MASK_COLOR,
        show (7 : Nat) ||| 1 &&& 8 = 7 from by decide,
        show (1 : Nat) ||| 7 &&& 8 = 1 from by decide,
        show (7 : Nat) ||| 9 &&& 8 = 15 from by decide,
        show (1 : Nat) ||| 15 &&& 8 = 9 from by decide]
  · by_cases h2 : j = pos
    · simp [updg, h1, h2, hpf, hpt, Ne.symm hpf, Ne.symm hpt]
    · by_cases h3 : j = t
      · simp [updg, h1, h2, h3, hft, Ne.symm hft, hpt, Ne.symm hpt]
      · simp [updg, h1, h2, h3]

theorem grid_castle_low_rt (ind : Int → Nat) (f : Int) (hrt : ind (f + -1) = 0) :
    (let g1 := updg (updg ind (f + -1) (ind (f + -3))) (f + -3) 0
     let g4 := updg (updg g1 (f - 2) (g1 f)) f 0
     let G := updg (updg (updg g4 f (g4 (f - 2))) (f - 2) 0) (f - 2) (ind (f - 2))
     updg (updg G (f + -3) (G (f + -1))) (f + -1) 0) = ind := by
  have d1 : f + -1 ≠ f + -3 := by omega
  have d2 : f + -1 ≠ f - 2 := by omega
  have d3 : f + -1 ≠ f := by omega
  have d4 : f + -3 ≠ f - 2 := by omega
  have d5 : f + -3 ≠ f := by omega
  have d6 : f - 2 ≠ f := by omega
  funext j
  by_cases h1 : j = f + -1
  · simp only [updg, if_pos h1]
    rw [h1]
    exact hrt.symm
  · by_cases h2 : j = f + -3
    · simp [updg, h1, h2, d1, d2, d3, d4, d5, d6, Ne.symm d1, Ne.symm d2, Ne.symm d3,
        Ne.symm d4, Ne.symm d5, Ne.symm d6]
    · by_cases h3 : j = f - 2
      · simp [updg, h1, h2, h3, d1, d2, d3, d4, d5, d6, Ne.symm d1, Ne.symm d2, Ne.symm d3,
          Ne.symm d4, Ne.symm d5, Ne.symm d6]
      · by_cases h4 : j = f
        · simp [updg, h1, h2, h3, h4, d1, d2, d3, d4, d5, d6, Ne.symm d1, Ne.symm d2,
            Ne.symm d3, Ne.symm d4, Ne.symm d5, Ne.symm d6]
        · simp [updg, h1, h2, h3, h4]

theorem grid_castle_high_rt (ind : Int → Nat) (f : Int) (hrt : ind (f + 1) = 0) :
    (let g1 := updg (updg ind (f + 1) (ind (f + 4))) (f + 4) 0
     let g4 := updg (updg g1 (f + 2) (g1 f)) f 0
     let G := updg (updg (updg g4 f (g4 (f + 2))) (f + 2) 0) (f + 2) (ind (f + 2))
     updg (updg G (f + 4) (G (f + 1))) (f + 1) 0) = ind := by
  have d1 : f + 1 ≠ f + 4 := by omega
  have d2 : f + 1 ≠ f + 2 := by omega
  have d3 : f + 1 ≠ f := by omega
  have d4 : f + 4 ≠ f + 2 := by omega
  have d5 : f + 4 ≠ f := by omega
  have d6 : f + 2 ≠ f := by omega
  funext j
  by_cases h1 : j = f + 1
  · simp only [updg, if_pos h1]
    rw [h1]
    exact hrt.symm
  · by_cases h2 : j = f + 4
    · simp [updg, h1, h2, d1, d2, d3, d4, d5, d6, Ne.symm d1, Ne.symm d2, Ne.symm d3,
        Ne.symm d4, Ne.symm d5, Ne.symm d6]
    · by_cases h3 : j = f + 2
      · simp [updg, h1, h2, h3, d1, d2, d3, d4, d5, d6, Ne.symm d1, Ne.symm d2, Ne.symm d3,
          Ne.symm d4, Ne.symm d5, Ne.symm d6]
      · by_cases h4 : j = f
        · simp [updg, h1, h2, h3, h4, d1, d2, d3, d4, d5, d6, Ne.symm d1, Ne.symm d2,
            Ne.symm d3, Ne.symm d4, Ne.symm d5, Ne.symm d6]
        · simp [updg, h1, h2, h3, h4]

theorem perform_castle_low_info (b : board_component_t) (f t : Int)
    (hk1 : b.indices f &&& MASK_TYPE = PIECE_KING) (h2 : f - t = 2) :
    (perform_move b f t).2 =
      ⟨MOVE_TYPE_CASTLE, b.indices t, t, f + -3, b.castle_bits, b.en_passant_pos, 0⟩ := by
  have hna : (f - t).natAbs = 2 := by omega
  have hlt : t < f := by omega
  have hg1f : (updg (updg b.indices (f + -1) (b.indices (f + -3))) (f + -3) 0) f
      = b.indices f := by
    simp [updg, show f ≠ f + -1 from by omega, show f ≠ f + -3 from by omega]
  have hk1' : b.indices f &&& 7 = 3 := hk1
  simp only [perform_move]
  simp [hk1, hk1', hna, hlt, hg1f, PIECE_KING, PIECE_PAWN, MASK_TYPE]

theorem perform_castle_low_indices (b : board_component_t) (f t : Int)
    (hk1 : b.indices f &&& MASK_TYPE = PIECE_KING) (h2 : f - t = 2) :
    (perform_move b f t).1.indices =
      (let g1 := updg (updg b.indices (f + -1) (b.indices (f + -3))) (f + -3) 0
       updg (updg g1 t (g1 f)) f 0) := by
  have hna : (f - t).natAbs = 2 := by omega
  have hlt : t < f := by omega
  have hg1f : (updg (updg b.indices (f + -1) (b.indices (f + -3))) (f + -3) 0) f
      = b.indices f := by
    simp [updg, show f ≠ f + -1 from by omega, show f ≠ f + -3 from by omega]
  have hk1' : b.indices f &&& 7 = 3 := hk1
  simp only [perform_move]
  simp [hk1, hk1', hna, hlt, hg1f, PIECE_KING, PIECE_PAWN, MASK_TYPE]

theorem perform_castle_high_info (b : board_component_t) (f t : Int)
    (hk1 : b.indices f &&& MASK_TYPE = PIECE_KING) (h2 : f - t = -2) :
    (perform_move b f t).2 =
      ⟨MOVE_TYPE_CASTLE, b.indices t, t, f + 4, b.castle_bits, b.en_passant_pos, 0⟩ := by
  have hna : (f - t).natAbs = 2 := by omega
  have hlt : ¬t < f := by omega
  have hg1f : (updg (updg b.indices (f + 1) (b.indices (f + 4))) (f + 4) 0) f
      = b.indices f := by
    simp [updg, show f ≠ f + 1 from by omega, show f ≠ f + 4 from by omega]
  have hk1' : b.indices f &&& 7 = 3 := hk1
  simp only [perform_move]
  simp [hk1, hk1', hna, hlt, hg1f, PIECE_KING, PIECE_PAWN, MASK_TYPE]

theorem perform_castle_high_indices (b : board_component_t) (f t : Int)
    (hk1 : b.indices f &&& MASK_TYPE = PIECE_KING) (h2 : f - t = -2) :
    (perform_move b f t).1.indices =
      (let g1 := updg (updg b.indices (f + 1) (b.indices (f + 4))) (f + 4) 0
       updg (updg g1 t (g1 f)) f 0) := by
  have hna : (f - t).natAbs = 2 := by omega
  have hlt : ¬t < f := by omega
  have hg1f : (updg (updg b.indices (f + 1) (b.indices (f + 4))) (f + 4) 0) f
      = b.indices f := by
    simp [updg, show f ≠ f + 1 from by omega, show f ≠ f + 4 from by omega]
  have hk1' : b.indices f &&& 7 = 3 := hk1
  simp only [perform_move]
  simp [hk1, hk1', hna, hlt, hg1f, PIECE_KING, PIECE_PAWN, MASK_TYPE]

theorem perform_ep_info (b : board_component_t) (f t : Int)
    (hkp : b.indices f &&& MASK_TYPE = PIECE_PAWN)
    (hd : (f - t).natAbs = 17 ∨ (f - t).natAbs = 15)
    (hcap : b.indices t = 0)
    (hpf : b.en_passant_pos ≠ f) :
    (perform_move b f t).2 =
      ⟨MOVE_TYPE_CAPTURE, b.indices b.en_passant_pos, b.en_passant_pos, 0,
        b.castle_bits, b.en_passant_pos,
        if int_and t 112 = 0 ∨ int_and t 112 = 112 then PIECE_QUEEN else 0⟩ := by
  have hn32 : (f - t).natAbs ≠ 32 := by omega
  have hnk : ¬(b.indices f &&& MASK_TYPE = PIECE_KING ∧ (f - t).natAbs = 2) := by
    rw [hkp]
    simp [PIECE_KING, PIECE_PAWN]
  have hg2f : updg b.indices b.en_passant_pos 0 f = b.indices f := by
    simp [updg, Ne.symm hpf]
  have hkp' : b.indices f &&& 7 = 1 := hkp
  simp only [perform_move, if_neg hnk]
  rcases hd with hd | hd <;>
  · simp [hkp, hkp', hd, hcap, hn32, hg2f, PIECE_PAWN, MASK_TYPE]
    split_ifs <;> rfl

theorem perform_ep_indices (b : board_component_t) (f t : Int)
    (hkp : b.indices f &&& MASK_TYPE = PIECE_PAWN)
    (hd : (f - t).natAbs = 17 ∨ (f - t).natAbs = 15)
    (hcap : b.indices t = 0)
    (hpf : b.en_passant_pos ≠ f) :
    (perform_move b f t).1.indices =
      (let g2 := updg b.indices b.en_passant_pos 0
       let g3 := if int_and t 112 = 0 ∨ int_and t 112 = 112 then
           updg g2 f (PIECE_QUEEN ||| (g2 f &&& MASK_COLOR))
         else g2
       updg (updg g3 t (g3 f)) f 0) := by
  have hn32 : (f - t).natAbs ≠ 32 := by omega
  have hnk : ¬(b.indices f &&& MASK_TYPE = PIECE_KING ∧ (f - t).natAbs = 2) := by
    rw [hkp]
    simp [PIECE_KING, PIECE_PAWN]
  have hg2f : updg b.indices b.en_passant_pos 0 f = b.indices f := by
    simp [updg, Ne.symm hpf]
  have hkp' : b.indices f &&& 7 = 1 := hkp
  simp only [perform_move, if_neg hnk]
  rcases hd with hd | hd <;>
  · simp [hkp, hkp', hd, hcap, hn32, hg2f, PIECE_PAWN, MASK_TYPE]
    split_ifs <;> rfl

/-- Assembling the make/undo round trip: every field except the grid is
restored unconditionally (the undo record snapshots castle rights and
the en-passant square, the player flip is an involution, and the uint32
counter round-trips), so the whole board is restored as soon as the grid
is. -/
theorem revert_perform_ext (b : board_component_t) (f t : Int)
    (hp : b.current_player = PIECE_WHITE ∨ b.current_player = PIECE_BLACK)
    (hmc : b.move_count < 4294967296)
    (hind : (revert_move (perform_move b f t).1 f t (perform_move b f t).2).indices
      = b.indices) :
    revert_move (perform_move b f t).1 f t (perform_move b f t).2 = b := by
  ext : 1
  · rfl
  · rfl
  · rw [hind]
  · show (if (perform_move b f t).1.current_player = PIECE_WHITE
        then PIECE_BLACK else PIECE_WHITE) = b.current_player
    rw [perform_current_player]
    rcases hp with h | h <;> simp [h, PIECE_WHITE, PIECE_BLACK]
  · show (perform_move b f t).2.last_castle_bits = b.castle_bits
    exact perform_last_castle_bits b f t
  · rfl
  · rfl
  · show (perform_move b f t).2.last_en_passant_pos = b.en_passant_pos
    exact perform_last_en_passant b f t
  · show ((perform_move b f t).1.move_count + 4294967296 - 1) % 4294967296 = b.move_count
    rw [perform_move_count]
    exact move_count_roundtrip b.move_count hmc
  · rfl

theorem roundtrip_castle_low (b : board_component_t) (f t : Int)
    (hp : b.current_player = PIECE_WHITE ∨ b.current_player = PIECE_BLACK)
    (hmc : b.move_count < 4294967296)
    (hk1 : b.indices f &&& MASK_TYPE = PIECE_KING) (h2 : f - t = 2)
    (hrt : b.indices (f + -1) = 0) :
    revert_move (perform_move b f t).1 f t (perform_move b f t).2 = b := by
  have ht : t = f - 2 := by omega
  subst ht
  apply revert_perform_ext b f (f - 2) hp hmc
  have hi := perform_castle_low_info b f (f - 2) hk1 h2
  have hx := perform_castle_low_indices b f (f - 2) hk1 h2
  simp only [revert_move, hi, hx]
  simp [show f - 2 < f from by omega, MOVE_TYPE_CASTLE]
  exact grid_castle_low_rt b.indices f hrt

theorem roundtrip_castle_high (b : board_component_t) (f t : Int)
    (hp : b.current_player = PIECE_WHITE ∨ b.current_player = PIECE_BLACK)
    (hmc : b.move_count < 4294967296)
    (hk1 : b.indices f &&& MASK_TYPE = PIECE_KING) (h2 : f - t = -2)
    (hrt : b.indices (f + 1) = 0) :
    revert_move (perform_move b f t).1 f t (perform_move b f t).2 = b := by
  have ht : t = f + 2 := by omega
  subst ht
  apply revert_perform_ext b f (f + 2) hp hmc
  have hi := perform_castle_high_info b f (f + 2) hk1 h2
  have hx := perform_castle_high_indices b f (f + 2) hk1 h2
  simp only [revert_move, hi, hx]
  simp [show ¬f + 2 < f from by omega, MOVE_TYPE_CASTLE]
  exact grid_castle_high_rt b.indices f hrt

theorem roundtrip_ep (b : board_component_t) (f t : Int)
    (hp : b.current_player = PIECE_WHITE ∨ b.current_player = PIECE_BLACK)
    (hmc : b.move_count < 4294967296)
    (hkp : b.indices f &&& MASK_TYPE = PIECE_PAWN)
    (hd : (f - t).natAbs = 17 ∨ (f - t).natAbs = 15)
    (hcap : b.indices t = 0)
    (hft : f ≠ t)
    (hpf : b.en_passant_pos ≠ f) (hpt : b.en_passant_pos ≠ t)
    (hv : b.indices f = 1 ∨ b.indices f = 9) :
    revert_move (perform_move b f t).1 f t (perform_move b f t).2 = b := by
  apply revert_perform_ext b f t hp hmc
  have hi := perform_ep_info b f t hkp hd hcap hpf
  have hx := perform_ep_indices b f t hkp hd hcap hpf
  simp only [revert_move, hi, hx]
  by_cases hrow : int_and t 112 = 0 ∨ int_and t 112 = 112
  · simp [hrow, MOVE_TYPE_CAPTURE, MOVE_TYPE_CASTLE, PIECE_QUEEN]
    exact (grid_ep_promo_rt b.indices f t b.en_passant_pos hft hpf hpt hv).trans
      (updg_id b.indices t 0 hcap)
  · simp [hrow, MOVE_TYPE_CAPTURE, MOVE_TYPE_CASTLE]
    exact (grid_ep_rt b.indices f t b.en_passant_pos hft hpf hpt).trans
      (updg_id b.indices t 0 hcap)

theorem roundtrip_noncastle_nonep (b : board_component_t) (f t : Int)
    (hp : b.current_player = PIECE_WHITE ∨ b.current_player = PIECE_BLACK)
    (hmc : b.move_count < 4294967296)
    (hpc : b.indices f &&& MASK_TYPE = PIECE_PAWN → b.indices f = 1 ∨ b.indices f = 9)
    (hft : f ≠ t)
    (hnc : ¬(b.indices f &&& MASK_TYPE = PIECE_KING ∧ (f - t).natAbs = 2))
    (hnep : ¬(b.indices f &&& MASK_TYPE = PIECE_PAWN
      ∧ ((f - t).natAbs = 17 ∨ (f - t).natAbs = 15) ∧ b.indices t = 0)) :
    revert_move (perform_move b f t).1 f t (perform_move b f t).2 = b := by
  apply revert_perform_ext b f t hp hmc
  have hi := perform_info_noncastle_nonep b f t hnc hnep
  have hx := perform_indices_noncastle_nonep b f t hnc hnep
  simp only [revert_move, hi, hx]
  have hmt : (if b.indices t ≠ 0 then MOVE_TYPE_CAPTURE else MOVE_TYPE_MOVE)
      ≠ MOVE_TYPE_CASTLE := by
    split_ifs <;> simp [MOVE_TYPE_CAPTURE, MOVE_TYPE_MOVE, MOVE_TYPE_CASTLE]
  rw [if_neg hmt]
  by_cases hpr : b.indices f &&& MASK_TYPE = PIECE_PAWN
      ∧ (int_and t 112 = 0 ∨ int_and t 112 = 112)
  · simp [hpr, PIECE_QUEEN]
    exact grid_promo_rt b.indices f t hft (hpc hpr.1)
  · simp [hpr]
    exact grid_plain_rt b.indices f t hft

/-- The make/undo round trip for any pseudo-legal move whose castling
rook destination (when the move castles) is empty: `perform_move`
followed by `revert_move` on its record restores the board exactly. -/
theorem perform_revert_exact (b : board_component_t) (f t : Int)
    (hp : b.current_player = PIECE_WHITE ∨ b.current_player = PIECE_BLACK)
    (hmc : b.move_count < 4294967296)
    (hpc : b.indices f &&& MASK_TYPE = PIECE_PAWN → b.indices f = 1 ∨ b.indices f = 9)
    (hleg : is_legal_move b f t = true)
    (hcd : castle_dest_clear b f t = true) :
    revert_move (perform_move b f t).1 f t (perform_move b f t).2 = b := by
  have hft : f ≠ t := legal_ne b f t hleg
  by_cases hk : b.indices f &&& MASK_TYPE = PIECE_KING ∧ (f - t).natAbs = 2
  · have hcd' : b.indices (f + (if t < f then (-1 : Int) else 1)) = 0 := by
      unfold castle_dest_clear at hcd
      simp [hk.1, hk.2] at hcd
      exact hcd
    have h2 : f - t = 2 ∨ f - t = -2 := by
      have := hk.2
      omega
    rcases h2 with h2 | h2
    · have hlt : t < f := by omega
      rw [if_pos hlt] at hcd'
      exact roundtrip_castle_low b f t hp hmc hk.1 h2 hcd'
    · have hlt : ¬t < f := by omega
      rw [if_neg hlt] at hcd'
      exact roundtrip_castle_high b f t hp hmc hk.1 h2 hcd'
  · by_cases hep : b.indices f &&& MASK_TYPE = PIECE_PAWN
        ∧ ((f - t).natAbs = 17 ∨ (f - t).natAbs = 15) ∧ b.indices t = 0
    · have hpose := legal_pawn_ep b f t hleg hep.1 hep.2.1 hep.2.2
      have hpf : b.en_passant_pos ≠ f := by
        rcases hpose with h | h <;> omega
      have hpt : b.en_passant_pos ≠ t := by
        have := hep.2.1
        rcases hpose with h | h <;> omega
      exact roundtrip_ep b f t hp hmc hep.1 hep.2.1 hep.2.2 hft hpf hpt (hpc hep.1)
    · exact roundtrip_noncastle_nonep b f t hp hmc hpc hft hk hep

/-- The castle-rights value computed by `perform_move`, spelled out. -/
theorem perform_castle_bits_def (b : board_component_t) (f t : Int) :
    (perform_move b f t).1.castle_bits =
      (let g1 :=
        if b.indices f &&& MASK_TYPE = PIECE_KING ∧ (f - t).natAbs = 2 then
          updg (updg b.indices (f + (if t < f then -1 else 1))
            (b.indices (f + (if t < f then -3 else 4)))) (f + (if t < f then -3 else 4)) 0
        else b.indices
       let cb1 :=
        if b.indices f &&& MASK_TYPE = PIECE_KING then
          b.castle_bits &&& (255 ^^^ ((3 <<< (b.current_player / 4)) &&& 255))
        else b.castle_bits
       let cb2 :=
        if g1 f &&& MASK_TYPE = PIECE_ROOK then
          if f = 0x0 ∨ f = 0x70 then
            cb1 &&& (255 ^^^ ((1 <<< (b.current_player / 4 + 0)) &&& 255))
          else if f = 0x7 ∨ f = 0x77 then
            cb1 &&& (255 ^^^ ((1 <<< (b.current_player / 4 + 1)) &&& 255))
          else cb1
        else cb1
       let opponent := if b.current_player = PIECE_WHITE then PIECE_BLACK else PIECE_WHITE
       if g1 t &&& MASK_TYPE = PIECE_ROOK then
         if t = 0x0 ∨ t = 0x70 then
           cb2 &&& (255 ^^^ ((1 <<< (opponent / 4 + 0)) &&& 255))
         else if t = 0x7 ∨ t = 0x77 then
           cb2 &&& (255 ^^^ ((1 <<< (opponent / 4 + 1)) &&& 255))
         else cb2
       else cb2) := rfl

/-- Every castle-rights write in `perform_move` is a bitwise AND with a
constant mask, so the new mask is a bitwise subset of the old one. -/
theorem perform_castle_bits_subset (b : board_component_t) (f t : Int) :
    (perform_move b f t).1.castle_bits &&& b.castle_bits
      = (perform_move b f t).1.castle_bits := by
  rw [perform_castle_bits_def]
  apply Nat.eq_of_testBit_eq
  intro i
  simp only [Nat.testBit_land]
  cases hcb : b.castle_bits.testBit i <;>
    simp [apply_ite (fun x : Nat => x.testBit i), Nat.testBit_land, hcb]

theorem legal_move_body_st_fst (b : board_component_t) (f t : Int)
    (recst : Int → Int → board_component_t × Bool)
    (hrec : ∀ u v, (recst u v).1 = b) :
    (legal_move_body_st b f t recst).1 = b := by
  simp only [legal_move_body_st,
    apply_ite (f := (Prod.fst : board_component_t × Bool → board_component_t)), hrec,
    ite_self]

theorem is_legal_move_st_fst :
    ∀ (n : Nat) (b : board_component_t) (f t : Int), (is_legal_move_st n b f t).1 = b := by
  intro n
  induction n with
  | zero => intro b f t; rfl
  | succ k ih =>
    intro b f t
    exact legal_move_body_st_fst b f t (is_legal_move_st k b) (fun u v => ih b u v)

theorem ite_bool_decide (P : Prop) [inst : Decidable P] (x : Bool) :
    (if P then x else false) = (decide P && x) := by
  split_ifs with h <;> simp [h]

theorem decide_and_split (p q : Prop) [Decidable p] [Decidable q] :
    decide (p ∧ q) = (decide p && decide q) := by
  by_cases hp : p <;> by_cases hq : q <;> simp [hp, hq]

theorem legal_move_body_st_snd (b : board_component_t) (f t : Int)
    (recst : Int → Int → board_component_t × Bool)
    (hrec : ∀ u v, (recst u v).1 = b) :
    (legal_move_body_st b f t recst).2
      = legal_move_body b f t (fun u v => (recst u v).2) := by
  simp only [legal_move_body_st, legal_move_body,
    apply_ite (f := (Prod.fst : board_component_t × Bool → board_component_t)),
    apply_ite (f := (Prod.snd : board_component_t × Bool → Bool)), hrec,
    ite_self, ite_bool_decide, decide_and_split]

theorem is_legal_move_st_snd :
    ∀ (n : Nat) (b : board_component_t) (f t : Int),
      (is_legal_move_st n b f t).2 = is_legal_move_fuel n b f t := by
  intro n
  induction n with
  | zero => intro b f t; rfl
  | succ k ih =>
    intro b f t
    have h := legal_move_body_st_snd b f t (is_legal_move_st k b)
      (fun u v => is_legal_move_st_fst k b u v)
    rw [show (is_legal_move_st (k + 1) b f t).2
        = (legal_move_body_st b f t (is_legal_move_st k b)).2 from rfl, h]
    show legal_move_body b f t (fun u v => (is_legal_move_st k b u v).2)
      = legal_move_body b f t (is_legal_move_fuel k b)
    congr 1
    funext u v
    exact ih b u v

/-- The en-passant square written by `perform_move`, spelled out: the
double-push destination for a pawn double move, zero otherwise. -/
theorem perform_en_passant_def (b : board_component_t) (f t : Int) :
    (perform_move b f t).1.en_passant_pos =
      (let g1 :=
        if b.indices f &&& MASK_TYPE = PIECE_KING ∧ (f - t).natAbs = 2 then
          updg (updg b.indices (f + (if t < f then -1 else 1))
            (b.indices (f + (if t < f then -3 else 4)))) (f + (if t < f then -3 else 4)) 0
        else b.indices
       if g1 f &&& MASK_TYPE = PIECE_PAWN ∧ (f - t).natAbs = 32 then t else 0) := by
  simp only [perform_move]
  split_ifs <;> first | rfl | tauto

/-- Double-push inversion: a pseudo-legal pawn move of distance 32 fired
the double-push clause, so the source rank bits are `0x60` or `0x10` and
the pawn's color matches the travel direction. -/
theorem legal_pawn_d32 (b : board_component_t) (f t : Int)
    (hleg : is_legal_move b f t = true)
    (hkp : b.indices f &&& MASK_TYPE = PIECE_PAWN)
    (hd : (f - t).natAbs = 32) :
    (int_and f 112 = 96 ∨ int_and f 112 = 16)
      ∧ b.indices f &&& MASK_COLOR = (if 0 < f - t then 0 else 8) := by
  obtain ⟨h0, h1, h2, h3⟩ := legal_inv b f t hleg
  have hs : b.indices f &&& MASK_SLIDE = 0 := by
    rw [slide_of_type (b.indices f) PIECE_PAWN hkp]
    decide
  unfold is_legal_move is_legal_move_fuel legal_move_body at hleg
  rw [if_neg (show ¬int_and t 136 ≠ 0 from by simp [h0])] at hleg
  rw [if_neg h1] at hleg
  rw [if_neg (show ¬b.indices f &&& MASK_COLOR ≠ b.current_player from by simp [h2])] at hleg
  rw [if_neg h3] at hleg
  by_cases hsign : 0 < f - t
  · rw [if_pos hsign]
    by_cases hdir : b.indices f &&& MASK_COLOR = 0
    · refine ⟨?_, hdir⟩
      simp [hkp, hs, hd, hsign, hdir] at hleg
      tauto
    · simp [hkp, hs, hd, hsign, hdir] at hleg
  · rw [if_neg hsign]
    by_cases hdir : b.indices f &&& MASK_COLOR = 8
    · refine ⟨?_, hdir⟩
      simp [hkp, hs, hd, hsign, hdir] at hleg
      tauto
    · simp [hkp, hs, hd, hsign, hdir] at hleg

/-- C10: a piece can never move to its own square: for every board state and
every square index `sq` in `0..127`, `is_legal_move board sq sq` returns
`false` — an empty source fails the empty-source test, and an occupied one
fails the cannot-capture-own-color test before any geometry is consulted. -/
theorem claim_C10_self_move_illegal (b : board_component_t) (sq : Int)
    (h0 : 0 ≤ sq) (h1 : sq ≤ 127) : is_legal_move b sq sq = false := by
  cases hv : is_legal_move b sq sq with
  | false => rfl
  | true => exact absurd rfl (legal_ne b sq sq hv)

/-- Witness for C10: square 64 of the initial position. -/
theorem claim_C10_self_move_illegal_witness :
    (0 : Int) ≤ 64 ∧ (64 : Int) ≤ 127 ∧ is_legal_move initial_board 64 64 = false :=
  ⟨by decide, by decide, claim_C10_self_move_illegal initial_board 64 (by decide) (by decide)⟩

/-- C9: castle rights never re-set: for every board state and every
`(from, to)`, the castle mask after `perform_move` is a bitwise subset of
the mask before it. -/
theorem claim_C9_castle_rights_monotone (b : board_component_t) (f t : Int) :
    (perform_move b f t).1.castle_bits &&& b.castle_bits
      = (perform_move b f t).1.castle_bits :=
  perform_castle_bits_subset b f t

/-- C6: the legality oracle is side-effect free: running the stateful
`is_legal_move` (recursion depth 3 covers the castle rook-slide call)
returns the board unchanged together with the pure oracle's verdict. -/
theorem claim_C6_oracle_side_effect_free (b : board_component_t) (f t : Int) :
    is_legal_move_st 3 b f t = (b, is_legal_move b f t) :=
  Prod.ext (is_legal_move_st_fst 3 b f t) (is_legal_move_st_snd 3 b f t)

/-- C4: after a pseudo-legal move, the en-passant square equals `to` when
the mover was a pawn moving two ranks, and `0` in every other case. -/
theorem claim_C4_en_passant_square (b : board_component_t) (f t : Int)
    (hleg : is_legal_move b f t = true) :
    (perform_move b f t).1.en_passant_pos =
      if b.indices f &&& MASK_TYPE = PIECE_PAWN ∧ (f - t).natAbs = 32 then t
      else 0 := by
  rw [perform_en_passant_def]
  by_cases hk : b.indices f &&& MASK_TYPE = PIECE_KING ∧ (f - t).natAbs = 2
  · obtain ⟨hk1, hk2⟩ := hk
    have h2 : f - t = 2 ∨ f - t = -2 := by omega
    rcases h2 with h2 | h2
    · have hlt : t < f := by omega
      have d1 : ¬(f = f + -3) := by omega
      have d2 : ¬(f = f + -1) := by omega
      simp [updg, hk1, hk2, hlt, d1, d2, PIECE_KING, PIECE_PAWN]
    · have hlt : ¬(t < f) := by omega
      have d1 : ¬(f = f + 4) := by omega
      have d2 : ¬(f = f + 1) := by omega
      simp [updg, hk1, hk2, hlt, d1, d2, PIECE_KING, PIECE_PAWN]
  · rw [if_neg hk]

/-- Witness for C4: White's double push 0x64 → 0x44 in the initial
position sets the en-passant square to the destination. -/
theorem claim_C4_en_passant_square_witness :
    is_legal_move initial_board 100 68 = true ∧
      (perform_move initial_board 100 68).1.en_passant_pos =
        (if initial_board.indices 100 &&& MASK_TYPE = PIECE_PAWN
            ∧ ((100 : Int) - 68).natAbs = 32 then (68 : Int) else 0) :=
  ⟨by decide, claim_C4_en_passant_square initial_board 100 68 (by decide)⟩

/-- C8: a double push by a pawn of the side to move is pseudo-legal only
from the pawn's starting rank — `0x60` for White, `0x10` for Black — and
a White pawn on rank `0x10` (resp. Black on `0x60`) has no pseudo-legal
double push at all. -/
theorem claim_C8_double_push_start_rank (b : board_component_t) (f : Int)
    (hf0 : 0 ≤ f) (hf1 : f ≤ 127)
    (hkp : b.indices f &&& MASK_TYPE = PIECE_PAWN) :
    (∀ t, is_legal_move b f t = true → (f - t).natAbs = 32 →
        (b.indices f &&& MASK_COLOR = PIECE_WHITE → int_and f 112 = 96)
          ∧ (b.indices f &&& MASK_COLOR = PIECE_BLACK → int_and f 112 = 16))
      ∧ (((b.indices f &&& MASK_COLOR = PIECE_WHITE ∧ int_and f 112 = 16)
            ∨ (b.indices f &&& MASK_COLOR = PIECE_BLACK ∧ int_and f 112 = 96)) →
          ∀ t, (f - t).natAbs = 32 → is_legal_move b f t = false) := by
  constructor
  · intro t hleg hd
    obtain ⟨hrow, hdir⟩ := legal_pawn_d32 b f t hleg hkp hd
    obtain ⟨h0, -, -, -⟩ := legal_inv b f t hleg
    constructor
    · intro hw
      by_cases hsign : 0 < f - t
      · rcases hrow with hrow | hrow
        · exact hrow
        · exfalso
          have ht : t = f - 32 := by omega
          subst ht
          clear hleg hkp hdir hw hsign hd
          revert hrow h0
          interval_cases f <;> decide
      · rw [if_neg hsign] at hdir
        exact absurd (hw.symm.trans hdir) (by decide)
    · intro hb
      by_cases hsign : 0 < f - t
      · rw [if_pos hsign] at hdir
        exact absurd (hb.symm.trans hdir) (by decide)
      · rcases hrow with hrow | hrow
        · exfalso
          have ht : t = f + 32 := by omega
          subst ht
          clear hleg hkp hdir hb hsign hd
          revert hrow h0
          interval_cases f <;> decide
        · exact hrow
  · intro hcase t hd
    cases hv : is_legal_move b f t with
    | false => rfl
    | true =>
      exfalso
      obtain ⟨hrow, hdir⟩ := legal_pawn_d32 b f t hv hkp hd
      obtain ⟨h0, -, -, -⟩ := legal_inv b f t hv
      rcases hcase with ⟨hw, hrow16⟩ | ⟨hb, hrow96⟩
      · by_cases hsign : 0 < f - t
        · have ht : t = f - 32 := by omega
          subst ht
          clear hv hkp hdir hw hsign hd hrow
          revert hrow16 h0
          interval_cases f <;> decide
        · rw [if_neg hsign] at hdir
          exact absurd (hw.symm.trans hdir) (by decide)
      · by_cases hsign : 0 < f - t
        · rw [if_pos hsign] at hdir
          exact absurd (hb.symm.trans hdir) (by decide)
        · have ht : t = f + 32 := by omega
          subst ht
          clear hv hkp hdir hb hsign hd hrow
          revert hrow96 h0
          interval_cases f <;> decide

/-- Witness for C8: the White pawn on `0x64` in the initial position. -/
theorem claim_C8_double_push_start_rank_witness :
    (0 : Int) ≤ 100 ∧ (100 : Int) ≤ 127
      ∧ initial_board.indices 100 &&& MASK_TYPE = PIECE_PAWN
      ∧ ((∀ t, is_legal_move initial_board 100 t = true → ((100 : Int) - t).natAbs = 32 →
            (initial_board.indices 100 &&& MASK_COLOR = PIECE_WHITE → int_and 100 112 = 96)
              ∧ (initial_board.indices 100 &&& MASK_COLOR = PIECE_BLACK → int_and 100 112 = 16))
          ∧ (((initial_board.indices 100 &&& MASK_COLOR = PIECE_WHITE ∧ int_and 100 112 = 16)
                ∨ (initial_board.indices 100 &&& MASK_COLOR = PIECE_BLACK ∧ int_and 100 112 = 96)) →
              ∀ t, ((100 : Int) - t).natAbs = 32 → is_legal_move initial_board 100 t = false)) :=
  ⟨by decide, by decide, by decide,
    claim_C8_double_push_start_rank initial_board 100 (by decide) (by decide) (by decide)⟩

/-- C5: a pseudo-legal pawn move landing on rank `0x00` or `0x70` leaves a
Queen of the mover's color on `to` and records `promotion = Queen`; any
other mover arrives unchanged, and every square other than `to` either
becomes empty, keeps its old piece byte, or (castling only) receives the
corner rook's byte unchanged — so no other piece's kind changes. -/
theorem claim_C5_promotion_law (b : board_component_t) (f t : Int)
    (hleg : is_legal_move b f t = true) :
    ((b.indices f &&& MASK_TYPE = PIECE_PAWN
        ∧ (int_and t 112 = 0 ∨ int_and t 112 = 112)) →
      (perform_move b f t).1.indices t = PIECE_QUEEN ||| (b.indices f &&& MASK_COLOR)
        ∧ (perform_move b f t).2.promotion = PIECE_QUEEN)
    ∧ ((¬(b.indices f &&& MASK_TYPE = PIECE_PAWN
        ∧ (int_and t 112 = 0 ∨ int_and t 112 = 112))) →
      (perform_move b f t).1.indices t = b.indices f)
    ∧ (∀ s : Int, s ≠ t →
        (perform_move b f t).1.indices s = 0
          ∨ (perform_move b f t).1.indices s = b.indices s
          ∨ (b.indices f &&& MASK_TYPE = PIECE_KING ∧ (f - t).natAbs = 2
              ∧ s = f + (if t < f then (-1 : Int) else 1)
              ∧ (perform_move b f t).1.indices s
                  = b.indices (f + (if t < f then (-3 : Int) else 4)))) := by
  have hft := legal_ne b f t hleg
  by_cases hk : b.indices f &&& MASK_TYPE = PIECE_KING ∧ (f - t).natAbs = 2
  · obtain ⟨hk1, hk2⟩ := hk
    have h2 : f - t = 2 ∨ f - t = -2 := by omega
    rcases h2 with h2 | h2
    · have hg := perform_castle_low_indices b f t hk1 h2
      have hlt : t < f := by omega
      refine ⟨?_, ?_, ?_⟩
      · intro hP
        exact absurd (hk1.symm.trans hP.1) (by decide)
      · intro hnP
        rw [hg]
        have d3 : ¬(f = f + -3) := by omega
        have d1 : ¬(f = f + -1) := by omega
        simp [updg, Ne.symm hft, d3, d1]
      · intro s hs
        rw [hg]
        by_cases hsf : s = f
        · left
          simp [updg, hsf]
        · by_cases hsr : s = f + -1
          · right; right
            refine ⟨hk1, hk2, ?_, ?_⟩
            · rw [if_pos hlt]; exact hsr
            · rw [if_pos hlt]
              subst hsr
              have dA : ¬(f + -1 = f + -3) := by omega
              simp [updg, hs, hsf, dA]
          · by_cases hsq : s = f + -3
            · left
              subst hsq
              simp [updg, hs, hsf]
            · right; left
              simp [updg, hs, hsf, hsr, hsq]
    · have hg := perform_castle_high_indices b f t hk1 h2
      have hlt : ¬t < f := by omega
      refine ⟨?_, ?_, ?_⟩
      · intro hP
        exact absurd (hk1.symm.trans hP.1) (by decide)
      · intro hnP
        rw [hg]
        have d3 : ¬(f = f + 4) := by omega
        have d1 : ¬(f = f + 1) := by omega
        simp [updg, Ne.symm hft, d3, d1]
      · intro s hs
        rw [hg]
        by_cases hsf : s = f
        · left
          simp [updg, hsf]
        · by_cases hsr : s = f + 1
          · right; right
            refine ⟨hk1, hk2, ?_, ?_⟩
            · rw [if_neg hlt]; exact hsr
            · rw [if_neg hlt]
              subst hsr
              have dA : ¬(f + 1 = f + 4) := by omega
              simp [updg, hs, hsf, dA]
          · by_cases hsq : s = f + 4
            · left
              subst hsq
              simp [updg, hs, hsf]
            · right; left
              simp [updg, hs, hsf, hsr, hsq]
  · by_cases hep : b.indices f &&& MASK_TYPE = PIECE_PAWN
        ∧ ((f - t).natAbs = 17 ∨ (f - t).natAbs = 15) ∧ b.indices t = 0
    · obtain ⟨hkp, hd, hcap⟩ := hep
      have hpe := legal_pawn_ep b f t hleg hkp hd hcap
      have hpf : b.en_passant_pos ≠ f := by rcases hpe with h | h <;> omega
      have hg := perform_ep_indices b f t hkp hd hcap hpf
      have hinfo := perform_ep_info b f t hkp hd hcap hpf
      refine ⟨?_, ?_, ?_⟩
      · intro hP
        constructor
        · rw [hg]
          simp [updg, hP.2, Ne.symm hft, Ne.symm hpf]
        · rw [hinfo]
          simp [hP.2]
      · intro hnP
        have hcond : ¬(int_and t 112 = 0 ∨ int_and t 112 = 112) :=
          fun hc => hnP ⟨hkp, hc⟩
        rw [hg]
        simp [updg, hcond, Ne.symm hft, Ne.symm hpf]
      · intro s hs
        rw [hg]
        by_cases hsf : s = f
        · left
          simp [updg, hsf]
        · by_cases hsp : s = b.en_passant_pos
          · left
            subst hsp
            simp [updg, hs, hsf]
            split_ifs <;> simp [updg, hsf]
          · right; left
            simp [updg, hs, hsf, hsp]
            split_ifs <;> simp [updg, hsf, hsp]
    · have hg := perform_indices_noncastle_nonep b f t hk hep
      have hinfo := perform_info_noncastle_nonep b f t hk hep
      refine ⟨?_, ?_, ?_⟩
      · intro hP
        constructor
        · rw [hg]
          simp [updg, hP.1, hP.2, Ne.symm hft]
        · rw [hinfo]
          simp [hP.1, hP.2]
      · intro hnP
        rw [hg]
        simp [updg, hnP, Ne.symm hft]
      · intro s hs
        rw [hg]
        by_cases hsf : s = f
        · left
          simp [updg, hsf]
        · right; left
          simp [updg, hs, hsf]
          split_ifs <;> simp [updg, hsf]

/-- Witness for C5: White's single push 0x64 → 0x54 in the initial
position (no promotion; the pawn arrives unchanged). -/
theorem claim_C5_promotion_law_witness :
    is_legal_move initial_board 100 84 = true ∧
      (((initial_board.indices 100 &&& MASK_TYPE = PIECE_PAWN
          ∧ (int_and 84 112 = 0 ∨ int_and 84 112 = 112)) →
        (perform_move initial_board 100 84).1.indices 84
            = PIECE_QUEEN ||| (initial_board.indices 100 &&& MASK_COLOR)
          ∧ (perform_move initial_board 100 84).2.promotion = PIECE_QUEEN)
      ∧ ((¬(initial_board.indices 100 &&& MASK_TYPE = PIECE_PAWN
          ∧ (int_and 84 112 = 0 ∨ int_and 84 112 = 112))) →
        (perform_move initial_board 100 84).1.indices 84 = initial_board.indices 100)
      ∧ (∀ s : Int, s ≠ 84 →
          (perform_move initial_board 100 84).1.indices s = 0
            ∨ (perform_move initial_board 100 84).1.indices s = initial_board.indices s
            ∨ (initial_board.indices 100 &&& MASK_TYPE = PIECE_KING
                ∧ ((100 : Int) - 84).natAbs = 2
                ∧ s = 100 + (if (84 : Int) < 100 then (-1 : Int) else 1)
                ∧ (perform_move initial_board 100 84).1.indices s
                    = initial_board.indices (100 + (if (84 : Int) < 100 then (-3 : Int) else 4))))) :=
  ⟨by decide, claim_C5_promotion_law initial_board 100 84 (by decide)⟩

/-- Unpacking the decidable invariant bundle: two-valued side to move,
uint32 move counter, and §3.1-valid piece codes on every cell. -/
theorem invariants_elim (b : board_component_t) (h : board_invariants b = true) :
    (b.current_player = PIECE_WHITE ∨ b.current_player = PIECE_BLACK)
      ∧ b.move_count < 4294967296
      ∧ (∀ i : Nat, i < 128 → valid_piece_code (b.indices (Int.ofNat i)) = true) := by
  unfold board_invariants at h
  simp only [Bool.and_eq_true, Bool.or_eq_true, decide_eq_true_eq, List.all_eq_true,
    List.mem_range] at h
  exact ⟨h.1.1.1.1.1.2, h.1.1.1.2, fun i hi => h.1.2 i hi⟩

/-- A valid piece code whose kind bits read pawn is exactly `0x1` or `0x9`. -/
theorem valid_code_pawn (c : Nat) (hv : valid_piece_code c = true)
    (hp : c &&& MASK_TYPE = PIECE_PAWN) : c = 1 ∨ c = 9 := by
  unfold valid_piece_code at hv
  simp only [Bool.or_eq_true, Bool.and_eq_true, decide_eq_true_eq] at hv
  rcases hv with h0 | ⟨⟨-, -⟩, hlt⟩
  · subst h0
    exact absurd hp (by decide)
  · interval_cases c <;> revert hp <;> decide

/-- Make/undo round-trip under the §3.3 invariants, amended by the empty
rook-destination side condition for castling probes. -/
theorem roundtrip_of_invariants (b : board_component_t) (f t : Int)
    (hf0 : 0 ≤ f) (hf1 : f < 128)
    (hinv : board_invariants b = true)
    (hleg : is_legal_move b f t = true)
    (hcd : castle_dest_clear b f t = true) :
    revert_move (perform_move b f t).1 f t (perform_move b f t).2 = b := by
  obtain ⟨hp, hmc, hcodes⟩ := invariants_elim b hinv
  have hvf : valid_piece_code (b.indices f) = true := by
    have h := hcodes f.toNat (by omega)
    rwa [show Int.ofNat f.toNat = f from Int.toNat_of_nonneg hf0] at h
  exact perform_revert_exact b f t hp hmc (valid_code_pawn _ hvf) hleg hcd

/-- C1: make/undo round-trip: for a board satisfying the §3.3 invariants
and a pseudo-legal `(from, to)` whose castling rook destination (when the
move is a castle) is empty, `perform_move` followed by `revert_move` with
the returned record restores the board exactly, every field included. -/
theorem claim_C1_make_undo_roundtrip (b : board_component_t) (f t : Int)
    (hf0 : 0 ≤ f) (hf1 : f < 128)
    (hinv : board_invariants b = true)
    (hleg : is_legal_move b f t = true)
    (hcd : castle_dest_clear b f t = true) :
    revert_move (perform_move b f t).1 f t (perform_move b f t).2 = b :=
  roundtrip_of_invariants b f t hf0 hf1 hinv hleg hcd

/-- Witness for C1: the double push 0x64 → 0x44 from the initial position
makes and unmakes exactly. -/
theorem claim_C1_make_undo_roundtrip_witness :
    (0 : Int) ≤ 100 ∧ (100 : Int) < 128
      ∧ board_invariants initial_board = true
      ∧ is_legal_move initial_board 100 68 = true
      ∧ castle_dest_clear initial_board 100 68 = true
      ∧ revert_move (perform_move initial_board 100 68).1 100 68
          (perform_move initial_board 100 68).2 = initial_board :=
  ⟨by decide, by decide, by decide, by decide, by decide,
    claim_C1_make_undo_roundtrip initial_board 100 68
      (by decide) (by decide) (by decide) (by decide) (by decide)⟩

/-- Counterexample for C1 as frozen: on `cexC1` the invariants hold and
(0x73, 0x71) is pseudo-legal, yet make followed by unmake does not
restore the board (the knight on 0x72 is gone). -/
theorem claim_C1_make_undo_roundtrip_counterexample :
    board_invariants cexC1 = true
      ∧ is_legal_move cexC1 115 113 = true
      ∧ revert_move (perform_move cexC1 115 113).1 115 113
          (perform_move cexC1 115 113).2 ≠ cexC1 :=
  ⟨by decide, by decide,
    fun h => absurd (congrArg (fun bb => bb.indices 114) h) (by decide)⟩

/-- C2: the castle-bit assignment is swapped between the oracle and the
mover.  The toward-lower castle (rook origin `from - 3`, the a-file rook)
is rejected under mask bit 0 and accepted under mask bit 1, while moving
that same file-0 rook out of its corner clears bit 0 and leaves bit 1
set — so the right that gates the queenside castle is never the right
that moving the queenside rook revokes. -/
theorem claim_C2_castle_bits_swapped :
    is_legal_move cexC2a 115 113 = false
      ∧ is_legal_move cexC2b 115 113 = true
      ∧ (perform_move cexC2a 112 96).1.castle_bits = 0
      ∧ (perform_move cexC2b 112 96).1.castle_bits = 2 :=
  ⟨by decide, by decide, by decide, by decide⟩

/-- C7: a rejected target is a no-op, amended by the castling
rook-destination side condition: when the selection is dead, the move is
not pseudo-legal, or the king-safety guard fires, the handler returns the
board it was given — the guard's transient make/unmake being exact under
the §3.3 invariants and an empty rook destination. -/
theorem claim_C7_reject_is_noop (alive : Bool) (selPos : Int)
    (b : board_component_t) (x z : Int)
    (hs0 : 0 ≤ selPos) (hs1 : selPos < 128)
    (hinv : board_invariants b = true)
    (hcd : castle_dest_clear b selPos (x + z * 16) = true)
    (hrej : alive = false ∨ is_legal_move b selPos (x + z * 16) = false
      ∨ is_checked_after_move b selPos (x + z * 16) = true) :
    try_move_selected_piece alive selPos b x z = b := by
  rcases hrej with ha | hl | hc
  · subst ha
    rfl
  · cases halive : alive
    · rfl
    · simp [try_move_selected_piece, hl]
  · cases halive : alive
    · rfl
    · cases hleg : is_legal_move b selPos (x + z * 16)
      · simp [try_move_selected_piece, hleg]
      · have hrt := roundtrip_of_invariants b selPos (x + z * 16) hs0 hs1 hinv hleg hcd
        have hc2 : (is_checked_after_move_st b selPos (x + z * 16)).2 = true := hc
        simp only [try_move_selected_piece, hleg]
        rw [if_neg (by simp)]
        rw [if_neg (by simp [hleg])]
        rw [if_pos hc2]
        exact hrt

/-- Witness for C7: with a dead selection nothing happens. -/
theorem claim_C7_reject_is_noop_witness :
    (0 : Int) ≤ 0 ∧ (0 : Int) < 128
      ∧ board_invariants initial_board = true
      ∧ castle_dest_clear initial_board 0 (0 + 0 * 16) = true
      ∧ ((false : Bool) = false
          ∨ is_legal_move initial_board 0 (0 + 0 * 16) = false
          ∨ is_checked_after_move initial_board 0 (0 + 0 * 16) = true)
      ∧ try_move_selected_piece false 0 initial_board 0 0 = initial_board :=
  ⟨by decide, by decide, by decide, by decide, Or.inl rfl,
    claim_C7_reject_is_noop false 0 initial_board 0 0
      (by decide) (by decide) (by decide) (by decide) (Or.inl rfl)⟩

/-- Counterexample for C7 as frozen: on `cexC7` the tile (1, 7) names a
pseudo-legal but king-unsafe castle for the selected king on 0x73; the
handler rejects it yet does not return the board unchanged. -/
theorem claim_C7_reject_is_noop_counterexample :
    board_invariants cexC7 = true
      ∧ is_legal_move cexC7 115 (1 + 7 * 16) = true
      ∧ is_checked_after_move cexC7 115 (1 + 7 * 16) = true
      ∧ try_move_selected_piece true 115 cexC7 1 7 ≠ cexC7 :=
  ⟨by decide, by decide, by decide,
    fun h => absurd (congrArg (fun bb => bb.indices 114) h) (by decide)⟩

/-- Membership in the probe-pair list bounds both components. -/
theorem mem_all_board_pairs (p : Nat × Nat) (hp : p ∈ all_board_pairs) :
    p.1 < 128 ∧ p.2 < 128 := by
  unfold all_board_pairs at hp
  simp only [List.mem_flatMap, List.mem_map, List.mem_range] at hp
  obtain ⟨f, hf, t, ht, hpe⟩ := hp
  subst hpe
  exact ⟨hf, ht⟩

/-- When every pseudo-legal probe of the list unmakes exactly, the
move-counting fold leaves the board fixed and counts against that one
board. -/
theorem fold_count_const (b : board_component_t) :
    ∀ (l : List (Nat × Nat)),
      (∀ p ∈ l, is_legal_move b (Int.ofNat p.1) (Int.ofNat p.2) = true →
        (is_checked_after_move_st b (Int.ofNat p.1) (Int.ofNat p.2)).1 = b) →
      ∀ n : Nat,
        l.foldl count_legal_step (b, n)
          = (b, n + l.countP (fun ft =>
              is_legal_move b (Int.ofNat ft.1) (Int.ofNat ft.2)
              && !(is_checked_after_move b (Int.ofNat ft.1) (Int.ofNat ft.2))))
  | [], _, n => by simp
  | p :: rest, H, n => by
    rw [List.foldl_cons, List.countP_cons]
    by_cases hleg : is_legal_move b (Int.ofNat p.1) (Int.ofNat p.2) = true
    · have hb := H p (List.mem_cons_self p rest) hleg
      have hlegc : is_legal_move b (↑p.1) (↑p.2) = true := hleg
      have hbc : (is_checked_after_move_st b (↑p.1) (↑p.2)).1 = b := hb
      have hstep : count_legal_step (b, n) p
          = (b, n + (if (is_checked_after_move_st b (Int.ofNat p.1) (Int.ofNat p.2)).2
              then 0 else 1)) := by
        simp [count_legal_step, hlegc, hbc]
      rw [hstep, fold_count_const b rest (fun q hq => H q (List.mem_cons_of_mem p hq)) _]
      refine congrArg (Prod.mk b) ?_
      cases hchk : (is_checked_after_move_st b (Int.ofNat p.1) (Int.ofNat p.2)).2
      · have hchkc : (is_checked_after_move_st b (↑p.1) (↑p.2)).2 = false := hchk
        simp [is_checked_after_move, hlegc, hchkc, Nat.add_assoc, Nat.add_comm,
          Nat.add_left_comm]
      · have hchkc : (is_checked_after_move_st b (↑p.1) (↑p.2)).2 = true := hchk
        simp [is_checked_after_move, hlegc, hchkc]
    · have hleg' : is_legal_move b (Int.ofNat p.1) (Int.ofNat p.2) = false := by
        cases h : is_legal_move b (Int.ofNat p.1) (Int.ofNat p.2)
        · rfl
        · exact absurd h hleg
      have hlegc : is_legal_move b (↑p.1) (↑p.2) = false := hleg'
      have hstep : count_legal_step (b, n) p = (b, n) := by
        simp [count_legal_step, hlegc]
      rw [hstep, fold_count_const b rest (fun q hq => H q (List.mem_cons_of_mem p hq)) n]
      refine congrArg (Prod.mk b) ?_
      simp [hlegc]

/-- Under the invariants and empty castling rook destinations, every
probe of the terminal-detection loop unmakes exactly. -/
theorem probe_roundtrip (b : board_component_t)
    (hinv : board_invariants b = true)
    (hacd : all_castle_dests_clear b = true)
    (p : Nat × Nat) (hp : p ∈ all_board_pairs)
    (hleg : is_legal_move b (Int.ofNat p.1) (Int.ofNat p.2) = true) :
    (is_checked_after_move_st b (Int.ofNat p.1) (Int.ofNat p.2)).1 = b := by
  have hb := mem_all_board_pairs p hp
  have hcd : castle_dest_clear b (Int.ofNat p.1) (Int.ofNat p.2) = true := by
    unfold all_castle_dests_clear at hacd
    rw [List.all_eq_true] at hacd
    have h := hacd p hp
    simp only [Bool.or_eq_true, Bool.not_eq_true'] at h
    rcases h with h | h
    · rw [hleg] at h
      exact absurd h (by decide)
    · exact h
  exact roundtrip_of_invariants b (Int.ofNat p.1) (Int.ofNat p.2)
    (Int.ofNat_nonneg p.1) (by rw [Int.ofNat_eq_coe]; exact_mod_cast hb.1) hinv hleg hcd

/-- C3: terminal-tag correctness, amended by the requirement that every
pseudo-legal castling probe has an empty rook destination (so the loop's
transient make/unmake is exact): the tag written by
`check_end_condition_reached` is checkmate for the opponent when the side
to move has no king-safe pseudo-legal move and stands in check, stalemate
when it has none and does not, and playing otherwise. -/
theorem claim_C3_terminal_tag (b : board_component_t)
    (hinv : board_invariants b = true)
    (hacd : all_castle_dests_clear b = true) :
    (check_end_condition_reached b).game_state = spec_terminal_tag b := by
  have hfold := fold_count_const b all_board_pairs
    (fun p hp hleg => probe_roundtrip b hinv hacd p hp hleg) 0
  simp only [check_end_condition_reached, spec_terminal_tag, spec_num_legal_moves,
    spec_side_in_check, hfold, List.countP_eq_length_filter, Nat.zero_add]
  split_ifs <;> rfl

theorem foldl_flatMap {α β γ : Type} (g : α → List β) (f : γ → β → γ) :
    ∀ (l : List α) (s : γ),
      (l.flatMap g).foldl f s = l.foldl (fun s a => (g a).foldl f s) s
  | [], _ => rfl
  | a :: l, s => by
    rw [List.flatMap_cons, List.foldl_append, List.foldl_cons, foldl_flatMap g f l _]

theorem foldl_fixed {β γ : Type} (f : γ → β → γ) :
    ∀ (l : List β) (s : γ), (∀ a ∈ l, f s a = s) → l.foldl f s = s
  | [], _, _ => rfl
  | a :: l, s, H => by
    rw [List.foldl_cons, H a (List.mem_cons_self a l)]
    exact foldl_fixed f l s (fun x hx => H x (List.mem_cons_of_mem a hx))

theorem countP_flatMap {α β : Type} (g : α → List β) (p : β → Bool) :
    ∀ l : List α, (l.flatMap g).countP p = (l.map (fun a => (g a).countP p)).sum
  | [] => rfl
  | a :: l => by
    rw [List.flatMap_cons, List.countP_append, List.map_cons, List.sum_cons,
      countP_flatMap g p l]

/-- The low-castle make/unmake grid computation with no condition on the
rook's destination: the round trip zeroes that square and restores all
others. -/
theorem grid_castle_low_rt_gen (ind : Int → Nat) (f : Int) :
    (let g1 := updg (updg ind (f + -1) (ind (f + -3))) (f + -3) 0
     let g4 := updg (updg g1 (f - 2) (g1 f)) f 0
     let G := updg (updg (updg g4 f (g4 (f - 2))) (f - 2) 0) (f - 2) (ind (f - 2))
     updg (updg G (f + -3) (G (f + -1))) (f + -1) 0) = updg ind (f + -1) 0 := by
  have d1 : f + -1 ≠ f + -3 := by omega
  have d2 : f + -1 ≠ f - 2 := by omega
  have d3 : f + -1 ≠ f := by omega
  have d4 : f + -3 ≠ f - 2 := by omega
  have d5 : f + -3 ≠ f := by omega
  have d6 : f - 2 ≠ f := by omega
  funext j
  by_cases h1 : j = f + -1
  · simp [updg, h1]
  · by_cases h2 : j = f + -3
    · simp [updg, h1, h2, d1, d2, d3, d4, d5, d6, Ne.symm d1, Ne.symm d2, Ne.symm d3,
        Ne.symm d4, Ne.symm d5, Ne.symm d6]
    · by_cases h3 : j = f - 2
      · simp [updg, h1, h2, h3, d1, d2, d3, d4, d5, d6, Ne.symm d1, Ne.symm d2, Ne.symm d3,
          Ne.symm d4, Ne.symm d5, Ne.symm d6]
      · by_cases h4 : j = f
        · simp [updg, h1, h2, h3, h4, d1, d2, d3, d4, d5, d6, Ne.symm d1, Ne.symm d2,
            Ne.symm d3, Ne.symm d4, Ne.symm d5, Ne.symm d6]
        · simp [updg, h1, h2, h3, h4]

/-- Field-wise reduction of the make/unmake round trip to an arbitrary
target grid. -/
theorem revert_perform_ext_gen (b : board_component_t) (f t : Int)
    (hp : b.current_player = PIECE_WHITE ∨ b.current_player = PIECE_BLACK)
    (hmc : b.move_count < 4294967296) (g : Int → Nat)
    (hind : (revert_move (perform_move b f t).1 f t (perform_move b f t).2).indices = g) :
    revert_move (perform_move b f t).1 f t (perform_move b f t).2
      = { b with indices := g } := by
  ext : 1
  · rfl
  · rfl
  · rw [hind]
  · show (if (perform_move b f t).1.current_player = PIECE_WHITE
        then PIECE_BLACK else PIECE_WHITE) = b.current_player
    rw [perform_current_player]
    rcases hp with h | h <;> simp [h, PIECE_WHITE, PIECE_BLACK]
  · show (perform_move b f t).2.last_castle_bits = b.castle_bits
    exact perform_last_castle_bits b f t
  · rfl
  · rfl
  · show (perform_move b f t).2.last_en_passant_pos = b.en_passant_pos
    exact perform_last_en_passant b f t
  · show ((perform_move b f t).1.move_count + 4294967296 - 1) % 4294967296 = b.move_count
    rw [perform_move_count]
    exact move_count_roundtrip b.move_count hmc
  · rfl

/-- Unmaking a toward-lower castle whose rook destination was occupied:
the round trip returns the board with that square zeroed. -/
theorem revert_castle_low_corrupt (b : board_component_t) (f t : Int)
    (hp : b.current_player = PIECE_WHITE ∨ b.current_player = PIECE_BLACK)
    (hmc : b.move_count < 4294967296)
    (hk1 : b.indices f &&& MASK_TYPE = PIECE_KING) (h2 : f - t = 2) :
    revert_move (perform_move b f t).1 f t (perform_move b f t).2
      = { b with indices := updg b.indices (f + -1) 0 } := by
  have ht : t = f - 2 := by omega
  subst ht
  apply revert_perform_ext_gen b f (f - 2) hp hmc
  have hi := perform_castle_low_info b f (f - 2) hk1 h2
  have hx := perform_castle_low_indices b f (f - 2) hk1 h2
  simp only [revert_move, hi, hx]
  simp [show f - 2 < f from by omega, MOVE_TYPE_CASTLE]
  exact grid_castle_low_rt_gen b.indices f

set_option maxHeartbeats 8000000 in
/-- On the unmodified `cexC3`, no probe row contributes a legal move:
White is checkmated. -/
theorem cexC3_row_counts : ∀ f : Nat, f < 128 → (probe_row f).countP (fun ft =>
    is_legal_move cexC3 (Int.ofNat ft.1) (Int.ofNat ft.2)
    && !(is_checked_after_move cexC3 (Int.ofNat ft.1) (Int.ofNat ft.2))) = 0 := by
  intro f hf
  interval_cases f <;> decide

/-- The claim-side tag of `cexC3` is checkmate for Black. -/
theorem cexC3_spec_tag : spec_terminal_tag cexC3 = STATE_BLACK_WIN_BY_CHECKMATE := by
  have hspec : spec_num_legal_moves cexC3 = 0 := by
    unfold spec_num_legal_moves
    rw [← List.countP_eq_length_filter]
    rw [show all_board_pairs = (List.range 128).flatMap probe_row from rfl,
      countP_flatMap]
    apply List.sum_eq_zero
    intro x hx
    rw [List.mem_map] at hx
    obtain ⟨f, hf, rfl⟩ := hx
    rw [List.mem_range] at hf
    exact cexC3_row_counts f hf
  have hcheck : spec_side_in_check cexC3 = true := by decide
  have hpl : cexC3.current_player = PIECE_WHITE := rfl
  simp [spec_terminal_tag, hspec, hcheck, hpl]

set_option maxHeartbeats 8000000 in
/-- The tag computed by the code on `cexC3` is `playing`: the corrupting
castle probe deletes the rook guarding 0x74, and the loop then counts the
king step (0x73, 0x74) as a legal move. -/
theorem cexC3_code_tag : (check_end_condition_reached cexC3).game_state = STATE_PLAYING := by
  have hH : ∀ (bb : board_component_t), board_invariants bb = true →
      ∀ (a c : Nat), a < 128 → c < 128 →
      castle_dest_clear bb (Int.ofNat a) (Int.ofNat c) = true →
      is_legal_move bb (Int.ofNat a) (Int.ofNat c) = true →
      (is_checked_after_move_st bb (Int.ofNat a) (Int.ofNat c)).1 = bb := by
    intro bb hbb a c h1 h2 hcd hleg
    exact roundtrip_of_invariants bb _ _ (Int.ofNat_nonneg a)
      (by rw [Int.ofNat_eq_coe]; exact_mod_cast h1) hbb hleg hcd
  have hinv : board_invariants cexC3 = true := by decide
  have hinvc : board_invariants cexC3' = true := by decide
  have hcdk : ∀ (bb : board_component_t) (f t : Int),
      bb.indices f &&& MASK_TYPE ≠ PIECE_KING → castle_dest_clear bb f t = true := by
    intro bb f t hk
    unfold castle_dest_clear
    simp [hk]
  have hA : ∀ (a c : Nat), a < 128 → a ≠ 115 → c < 128 →
      is_legal_move cexC3 (Int.ofNat a) (Int.ofNat c) = true →
      (is_checked_after_move_st cexC3 (Int.ofNat a) (Int.ofNat c)).1 = cexC3 := by
    intro a c ha hne hc hleg
    have hcd : castle_dest_clear cexC3 (Int.ofNat a) (Int.ofNat c) = true := by
      interval_cases a <;>
        first
          | exact hcdk _ _ _ (by decide)
          | exact absurd ((legal_inv _ _ _ hleg).2.2.1) (by decide)
          | exact absurd rfl hne
    exact hH cexC3 hinv a c ha hc hcd hleg
  have hB : ∀ (c : Nat), c < 113 →
      is_legal_move cexC3 (Int.ofNat 115) (Int.ofNat c) = true →
      (is_checked_after_move_st cexC3 (Int.ofNat 115) (Int.ofNat c)).1 = cexC3 := by
    intro c hc hleg
    have hcd : castle_dest_clear cexC3 (Int.ofNat 115) (Int.ofNat c) = true := by
      unfold castle_dest_clear
      simp
      exact Or.inl (Or.inr (by omega))
    exact hH cexC3 hinv 115 c (by omega) (by omega) hcd hleg
  have hk1 : cexC3.indices (Int.ofNat 115) &&& MASK_TYPE = PIECE_KING := by decide
  have hcor := revert_castle_low_corrupt cexC3 (Int.ofNat 115) (Int.ofNat 113)
      (Or.inl rfl) (by decide) hk1 (by decide)
  rw [show (Int.ofNat 115 + -1 : Int) = (114 : Int) from by decide] at hcor
  have hcorst : (is_checked_after_move_st cexC3 (Int.ofNat 115) (Int.ofNat 113)).1
      = cexC3' := hcor
  have hchk113 : (is_checked_after_move_st cexC3 (Int.ofNat 115) (Int.ofNat 113)).2
      = true := by decide
  have hleg113 : is_legal_move cexC3 (Int.ofNat 115) (Int.ofNat 113) = true := by decide
  have hstep : count_legal_step (cexC3, 0) (115, 113) = (cexC3', 0) := by
    have e1 : count_legal_step (cexC3, 0) (115, 113)
        = ((is_checked_after_move_st cexC3 (Int.ofNat 115) (Int.ofNat 113)).1,
            0 + (if (is_checked_after_move_st cexC3 (Int.ofNat 115) (Int.ofNat 113)).2
              then 0 else 1)) := by
      simp only [count_legal_step]
      rw [if_pos hleg113]
    rw [e1, hcorst, hchk113]
    norm_num
  have hcd115c : ∀ t : Int, castle_dest_clear cexC3' (Int.ofNat 115) t = true := by
    intro t
    by_cases hd : ((115 : Int) - t).natAbs = 2
    · have ht : t = 113 ∨ t = 117 := by omega
      rcases ht with rfl | rfl <;> decide
    · unfold castle_dest_clear
      simp
      exact Or.inl (Or.inr hd)
  have hD : ∀ (c : Nat), c < 128 →
      is_legal_move cexC3' (Int.ofNat 115) (Int.ofNat c) = true →
      (is_checked_after_move_st cexC3' (Int.ofNat 115) (Int.ofNat c)).1 = cexC3' := by
    intro c hc hleg
    exact hH cexC3' hinvc 115 c (by omega) hc (hcd115c (Int.ofNat c)) hleg
  have hE : ∀ (a c : Nat), 116 ≤ a → a < 128 → c < 128 →
      is_legal_move cexC3' (Int.ofNat a) (Int.ofNat c) = true →
      (is_checked_after_move_st cexC3' (Int.ofNat a) (Int.ofNat c)).1 = cexC3' := by
    intro a c ha1 ha2 hc hleg
    exfalso
    have h0 := (legal_inv _ _ _ hleg).2.1
    interval_cases a <;> exact h0 (by decide)
  have hprecnt : ((List.range 113).map (fun t => ((115 : Nat), t))).countP (fun ft =>
      is_legal_move cexC3 (Int.ofNat ft.1) (Int.ofNat ft.2)
      && !(is_checked_after_move cexC3 (Int.ofNat ft.1) (Int.ofNat ft.2))) = 0 := by decide
  have hpostcnt : (((List.range 14).map (fun i => 114 + i)).map
      (fun t => ((115 : Nat), t))).countP (fun ft =>
      is_legal_move cexC3' (Int.ofNat ft.1) (Int.ofNat ft.2)
      && !(is_checked_after_move cexC3' (Int.ofNat ft.1) (Int.ofNat ft.2))) = 1 := by decide
  have hrowc : ∀ f : Nat, 116 ≤ f → f < 128 → (probe_row f).countP (fun ft =>
      is_legal_move cexC3' (Int.ofNat ft.1) (Int.ofNat ft.2)
      && !(is_checked_after_move cexC3' (Int.ofNat ft.1) (Int.ofNat ft.2))) = 0 := by
    intro f h1 h2
    interval_cases f <;> decide
  have hflat : all_board_pairs.foldl count_legal_step (cexC3, (0 : Nat))
      = (List.range 128).foldl (fun s a => (probe_row a).foldl count_legal_step s)
        (cexC3, 0) := by
    rw [show all_board_pairs = (List.range 128).flatMap probe_row from rfl, foldl_flatMap]
  have hsplitO : List.range 128
      = List.range 115 ++ (115 :: (List.range 12).map (fun i => 116 + i)) := by decide
  have hsplitI : List.range 128
      = List.range 113 ++ (113 :: (List.range 14).map (fun i => 114 + i)) := by decide
  have hpartA : (List.range 115).foldl (fun s a => (probe_row a).foldl count_legal_step s)
      (cexC3, (0 : Nat)) = (cexC3, 0) := by
    apply foldl_fixed
    intro a ha
    rw [List.mem_range] at ha
    show (probe_row a).foldl count_legal_step (cexC3, 0) = (cexC3, 0)
    have hHrow : ∀ p ∈ probe_row a,
        is_legal_move cexC3 (Int.ofNat p.1) (Int.ofNat p.2) = true →
        (is_checked_after_move_st cexC3 (Int.ofNat p.1) (Int.ofNat p.2)).1 = cexC3 := by
      intro p hp hleg
      unfold probe_row at hp
      rw [List.mem_map] at hp
      obtain ⟨t, ht, rfl⟩ := hp
      rw [List.mem_range] at ht
      exact hA a t (by omega) (by omega) ht hleg
    rw [fold_count_const cexC3 (probe_row a) hHrow 0, cexC3_row_counts a (by omega)]
  have hrow115 : (probe_row 115).foldl count_legal_step (cexC3, (0 : Nat)) = (cexC3', 1) := by
    unfold probe_row
    rw [hsplitI, List.map_append, List.map_cons, List.foldl_append, List.foldl_cons]
    have hHpre : ∀ p ∈ (List.range 113).map (fun t => ((115 : Nat), t)),
        is_legal_move cexC3 (Int.ofNat p.1) (Int.ofNat p.2) = true →
        (is_checked_after_move_st cexC3 (Int.ofNat p.1) (Int.ofNat p.2)).1 = cexC3 := by
      intro p hp hleg
      rw [List.mem_map] at hp
      obtain ⟨t, ht, rfl⟩ := hp
      rw [List.mem_range] at ht
      exact hB t ht hleg
    rw [fold_count_const cexC3 _ hHpre 0, hprecnt, Nat.add_zero]
    rw [hstep]
    have hHpost : ∀ p ∈ ((List.range 14).map (fun i => 114 + i)).map
        (fun t => ((115 : Nat), t)),
        is_legal_move cexC3' (Int.ofNat p.1) (Int.ofNat p.2) = true →
        (is_checked_after_move_st cexC3' (Int.ofNat p.1) (Int.ofNat p.2)).1 = cexC3' := by
      intro p hp hleg
      rw [List.mem_map] at hp
      obtain ⟨t, ht, rfl⟩ := hp
      rw [List.mem_map] at ht
      obtain ⟨i, hi, rfl⟩ := ht
      rw [List.mem_range] at hi
      exact hD (114 + i) (by omega) hleg
    rw [fold_count_const cexC3' _ hHpost 0, hpostcnt]
  have hpartC : ((List.range 12).map (fun i => 116 + i)).foldl
      (fun s a => (probe_row a).foldl count_legal_step s) (cexC3', (1 : Nat))
      = (cexC3', 1) := by
    apply foldl_fixed
    intro a ha
    rw [List.mem_map] at ha
    obtain ⟨i, hi, rfl⟩ := ha
    rw [List.mem_range] at hi
    show (probe_row (116 + i)).foldl count_legal_step (cexC3', 1) = (cexC3', 1)
    have hHrow : ∀ p ∈ probe_row (116 + i),
        is_legal_move cexC3' (Int.ofNat p.1) (Int.ofNat p.2) = true →
        (is_checked_after_move_st cexC3' (Int.ofNat p.1) (Int.ofNat p.2)).1 = cexC3' := by
      intro p hp hleg
      unfold probe_row at hp
      rw [List.mem_map] at hp
      obtain ⟨t, ht, rfl⟩ := hp
      rw [List.mem_range] at ht
      exact hE (116 + i) t (by omega) (by omega) ht hleg
    rw [fold_count_const cexC3' (probe_row (116 + i)) hHrow 1,
      hrowc (116 + i) (by omega) (by omega)]
  have hjoin : all_board_pairs.foldl count_legal_step (cexC3, (0 : Nat)) = (cexC3', 1) := by
    rw [hflat, hsplitO, List.foldl_append, hpartA, List.foldl_cons]
    rw [hrow115]
    exact hpartC
  simp [check_end_condition_reached, hjoin]

/-- No pseudo-legal castle of the initial position has an occupied rook
destination: the only king/distance-2 probe pairs are (0x03, 0x01),
(0x03, 0x05), (0x73, 0x71) and (0x73, 0x75), and none of them is
pseudo-legal on the crowded back ranks. -/
theorem initial_all_castle_dests_clear : all_castle_dests_clear initial_board = true := by
  unfold all_castle_dests_clear
  rw [List.all_eq_true]
  intro p hp
  have hb := mem_all_board_pairs p hp
  obtain ⟨a, c⟩ := p
  by_cases hk : initial_board.indices ((a : Nat) : Int) &&& MASK_TYPE = PIECE_KING
      ∧ (((a : Nat) : Int) - ((c : Nat) : Int)).natAbs = 2
  · obtain ⟨hk1, hk2⟩ := hk
    have ha : a = 3 ∨ a = 115 := by
      have h1 := hb.1
      interval_cases a <;> revert hk1 <;> decide
    have hc2 : c = a - 2 ∨ c = a + 2 := by
      rcases ha with rfl | rfl <;> omega
    rcases ha with rfl | rfl <;> rcases hc2 with rfl | rfl <;> decide
  · simp only [Bool.or_eq_true]
    right
    unfold castle_dest_clear
    simp
    tauto

/-- Counterexample for C3 as frozen: on the invariant-satisfying board
`cexC3` the claimed tag is checkmate, but the code reports `playing`. -/
theorem claim_C3_terminal_tag_counterexample :
    board_invariants cexC3 = true
      ∧ spec_terminal_tag cexC3 = STATE_BLACK_WIN_BY_CHECKMATE
      ∧ (check_end_condition_reached cexC3).game_state = STATE_PLAYING
      ∧ (check_end_condition_reached cexC3).game_state ≠ spec_terminal_tag cexC3 := by
  refine ⟨by decide, cexC3_spec_tag, cexC3_code_tag, ?_⟩
  rw [cexC3_code_tag, cexC3_spec_tag]
  decide

/-- Witness for C3: on the initial position the code's tag agrees with
the claimed formula. -/
theorem claim_C3_terminal_tag_witness :
    board_invariants initial_board = true
      ∧ all_castle_dests_clear initial_board = true
      ∧ (check_end_condition_reached initial_board).game_state
          = spec_terminal_tag initial_board :=
  ⟨by decide, initial_all_castle_dests_clear,
    claim_C3_terminal_tag initial_board (by decide) initial_all_castle_dests_clear⟩
